import Mathlib

/-!
Verification development for the micro VM of the native obfuscator
(sources/micro_vm.{hpp,cpp} and sources/vm_jit.cpp).

Machine integers are modelled as natural-number bit patterns:
a 64-bit word is a `Nat` below `2 ^ 64` and an opcode byte is a `Nat`
below `256`.  Signed views are recovered explicitly where the C++ code
performs signed arithmetic.
-/

namespace MicroVM

/-- The modulus `2 ^ 64` of 64-bit words. -/
def W64 : Nat := 2 ^ 64

/-- The operand diffusion constant `0x9E3779B97F4A7C15`
(`OPERAND_XOR_CONST` in micro_vm.cpp). -/
def GOLDEN64 : Nat := 0x9E3779B97F4A7C15

/-- Number of opcodes (`OP_COUNT` in micro_vm.hpp). -/
def OP_COUNT : Nat := 141

/-- Signed view of a 64-bit pattern (two's complement). -/
def toS64 (n : Nat) : Int :=
  if n % W64 < 2 ^ 63 then ((n % W64 : Nat) : Int)
  else ((n % W64 : Nat) : Int) - (W64 : Int)

/-- 64-bit pattern of an integer (two's complement). -/
def ofS64 (i : Int) : Nat := (i % (W64 : Int)).toNat

/-- Signed view of the low 32 bits of a pattern. -/
def toS32 (n : Nat) : Int :=
  if n % 2 ^ 32 < 2 ^ 31 then ((n % 2 ^ 32 : Nat) : Int)
  else ((n % 2 ^ 32 : Nat) : Int) - (2 ^ 32 : Int)

/-- Sign-extend the low 32 bits of a pattern to a 64-bit pattern
(the C++ conversion `(int64_t)(int32_t)x`). -/
def sext32 (n : Nat) : Nat :=
  let m := n % 2 ^ 32
  if m < 2 ^ 31 then m else m + (W64 - 2 ^ 32)

/-- Sign-extend the low 16 bits (C++ `(int64_t)(int16_t)x`). -/
def sext16 (n : Nat) : Nat :=
  let m := n % 2 ^ 16
  if m < 2 ^ 15 then m else m + (W64 - 2 ^ 16)

/-- Sign-extend the low 8 bits (C++ `(int64_t)(int8_t)x`). -/
def sext8 (n : Nat) : Nat :=
  let m := n % 2 ^ 8
  if m < 2 ^ 7 then m else m + (W64 - 2 ^ 8)

/-- 64-bit wrapping addition. -/
def add64 (a b : Nat) : Nat := (a + b) % W64

/-- 64-bit wrapping subtraction. -/
def sub64 (a b : Nat) : Nat := ofS64 (toS64 a - toS64 b)

/-- 64-bit wrapping multiplication. -/
def mul64 (a b : Nat) : Nat := (a * b) % W64

/-- 64-bit wrapping negation. -/
def neg64 (a : Nat) : Nat := ofS64 (-toS64 a)

/-- Truncated (C++-style) signed 64-bit division.  The overflowing case
`INT64_MIN / -1` is undefined behaviour in the source; the model wraps. -/
def divT64 (a b : Nat) : Nat := ofS64 ((toS64 a).tdiv (toS64 b))

/-- Truncated (C++-style) signed 64-bit remainder. -/
def remT64 (a b : Nat) : Nat := ofS64 ((toS64 a).tmod (toS64 b))

/-- Truncated signed 32-bit remainder, sign-extended back to 64 bits
(`(int64_t)((int32_t)a % (int32_t)b)` from `do_irem`). -/
def remT32 (a b : Nat) : Nat := ofS64 ((toS32 a).tmod (toS32 b))

/-- C++ `<<` on a 64-bit word; shift counts are taken modulo 64
(counts outside `[0,64)` are undefined behaviour in the source and are
modelled with the x86 masking behaviour, identically everywhere). -/
def shl64 (a b : Nat) : Nat := (a <<< (b % 64)) % W64

/-- C++ arithmetic `>>` on a signed 64-bit word, count modulo 64. -/
def sar64 (a b : Nat) : Nat := ofS64 (toS64 a >>> (b % 64))

/-- Logical `>>` on a 64-bit word, count modulo 64 (`do_ushr`). -/
def lshr64 (a b : Nat) : Nat := (a % W64) >>> (b % 64)

theorem xor_mod_two_pow (a b n : Nat) :
    (a ^^^ b) % 2 ^ n = a % 2 ^ n ^^^ b % 2 ^ n := by
  apply Nat.eq_of_testBit_eq
  intro i
  rcases lt_or_ge i n with h | h
  · simp [Nat.testBit_mod_two_pow, Nat.testBit_xor, h]
  · simp [Nat.testBit_mod_two_pow, Nat.testBit_xor, Nat.not_lt.mpr h]

theorem xor_lt_256 {a b : Nat} (ha : a < 256) (hb : b < 256) : a ^^^ b < 256 :=
  Nat.xor_lt_two_pow (n := 8) ha hb

theorem xor_mod256 (a b : Nat) : (a ^^^ b) % 256 = a % 256 ^^^ b % 256 :=
  xor_mod_two_pow a b 8

theorem xor_lt_W64 {a b : Nat} (ha : a < W64) (hb : b < W64) : a ^^^ b < W64 :=
  Nat.xor_lt_two_pow (n := 64) ha hb

/-! ## Encoding engine (micro_vm.cpp)

An instruction as stored in a program array: `{uint8_t op; int64_t
operand; uint64_t nonce;}` from micro_vm.hpp, with every field kept as
its bit pattern. -/

structure Instruction where
  op : Nat
  operand : Nat
  nonce : Nat
deriving Repr, DecidableEq

/-- The per-thread encoding state: the secret `KEY` and the two opcode
permutation layers with their inverses (`op_map`, `op_map2`,
`inv_op_map`, `inv_op_map2`).  The tables are total functions; the
source guarantees (via `init_key`) that they are mutually inverse
permutations of `[0, OP_COUNT)`, captured by `EncCtx.WF`. -/
structure EncCtx where
  key : Nat
  opMap : Nat → Nat
  opMap2 : Nat → Nat
  invOpMap : Nat → Nat
  invOpMap2 : Nat → Nat

/-- The table invariant established by `init_key`: both layers map
`[0, OP_COUNT)` into itself and the `inv_` tables invert them. -/
def EncCtx.WF (c : EncCtx) : Prop :=
  c.key < W64 ∧
  ∀ i, i < OP_COUNT →
    c.opMap i < OP_COUNT ∧ c.opMap2 i < OP_COUNT ∧
    c.invOpMap (c.opMap i) = i ∧ c.invOpMap2 (c.opMap2 i) = i

instance (c : EncCtx) : Decidable c.WF := by
  unfold EncCtx.WF; infer_instance

/-- Function `encode(op, operand, key, nonce)` from micro_vm.cpp: two-layer
opcode substitution, XOR of the mapped opcode with the low byte of the
nonce and then with the low byte of `mix = key ^ nonce`, and operand
masking with `mix * GOLDEN64`.  `% 256` marks every `uint8_t`
truncation of the source. -/
def encode (c : EncCtx) (op operand key nonce : Nat) : Instruction :=
  let mapped := c.opMap (op % 256) % 256
  let mapped := c.opMap2 mapped % 256
  let mapped := mapped ^^^ nonce % 256
  let mix := key ^^^ nonce
  { op := mapped ^^^ mix % 256
    operand := operand ^^^ mix * GOLDEN64 % W64
    nonce := nonce }

/-- The decode step shared by `execute` and `decode_for_jit`: a
`nonce == 0` instruction is passed through unchanged, otherwise the
encoding is inverted with the same `mix = state ^ nonce`. -/
def decodeInstr (c : EncCtx) (state : Nat) (ins : Instruction) : Nat × Nat :=
  if ins.nonce = 0 then (ins.op, ins.operand)
  else
    let mix := state ^^^ ins.nonce
    let mapped := (ins.op ^^^ mix % 256) % 256
    let mapped := mapped ^^^ ins.nonce % 256
    let mapped := c.invOpMap2 mapped % 256
    (c.invOpMap mapped % 256, ins.operand ^^^ mix * GOLDEN64 % W64)

/-- Update `state = (state + KEY) ^ (KEY >> 3)`, the per-instruction state
evolution used identically by `encode_program`, `execute` and
`decode_for_jit`. -/
def stepState (key state : Nat) : Nat :=
  ((state + key) % W64) ^^^ (key % W64) >>> 3

/-- Initial decode state `KEY ^ seed`. -/
def state0 (key seed : Nat) : Nat := key % W64 ^^^ seed % W64

/-- The loop body of `encode_program`: at each position the state is
stepped, a nonce `rng() ^ state` is drawn (the Mersenne-twister stream
is abstracted as the sequence `rng`), and the plain `{opcode, operand}`
pair at that position is encoded with the current state as key. -/
def encodeProgGo (c : EncCtx) (rng : Nat → Nat) :
    Nat → Nat → List (Nat × Nat) → List Instruction
  | _, _, [] => []
  | i, state, p :: rest =>
    let st := stepState c.key state
    let nonce := rng i % W64 ^^^ st
    encode c p.1 p.2 st nonce :: encodeProgGo c rng (i + 1) st rest

/-- Function `encode_program(code, length, seed)`: encodes a plain program under
state evolved from `KEY ^ seed`. -/
def encodeProgram (c : EncCtx) (seed : Nat) (rng : Nat → Nat)
    (prog : List (Nat × Nat)) : List Instruction :=
  encodeProgGo c rng 0 (state0 c.key seed) prog

/-- The loop body of `decode_for_jit`. -/
def decodeGo (c : EncCtx) : Nat → List Instruction → List (Nat × Nat)
  | _, [] => []
  | state, ins :: rest =>
    let st := stepState c.key state
    decodeInstr c st ins :: decodeGo c st rest

/-- Function `decode_for_jit(code, length, seed, out)`: positionally decodes an
encoded program under state evolved from `KEY ^ seed`. -/
def decodeForJit (c : EncCtx) (seed : Nat) (code : List Instruction) :
    List (Nat × Nat) :=
  decodeGo c (state0 c.key seed) code

theorem decodeInstr_encode (c : EncCtx) (hWF : c.WF) {op : Nat}
    (operand st nonce : Nat) (hop : op < OP_COUNT) (hn : nonce ≠ 0) :
    decodeInstr c st (encode c op operand st nonce) = (op, operand) := by
  obtain ⟨-, hTab⟩ := hWF
  have hop141 : op < 141 := hop
  have e0 : op % 256 = op := Nat.mod_eq_of_lt (by omega)
  obtain ⟨h1lt, -, h1inv, -⟩ := hTab op hop
  have h1lt141 : c.opMap op < 141 := h1lt
  have e1 : c.opMap op % 256 = c.opMap op := Nat.mod_eq_of_lt (by omega)
  obtain ⟨-, h2lt, -, h2inv⟩ := hTab (c.opMap op) h1lt
  have h2lt141 : c.opMap2 (c.opMap op) < 141 := h2lt
  have e2 : c.opMap2 (c.opMap op) % 256 = c.opMap2 (c.opMap op) :=
    Nat.mod_eq_of_lt (by omega)
  simp only [decodeInstr, encode, hn, if_neg, if_false]
  rw [e0, e1, e2]
  have hx1 : c.opMap2 (c.opMap op) ^^^ nonce % 256 < 256 :=
    xor_lt_256 (by omega) (Nat.mod_lt _ (by omega))
  rw [Nat.xor_cancel_right, Nat.mod_eq_of_lt hx1, Nat.xor_cancel_right,
    h2inv, e1, h1inv, Nat.mod_eq_of_lt (show op < 256 by omega),
    Nat.xor_cancel_right]

theorem decodeGo_encodeProgGo (c : EncCtx) (hWF : c.WF) (rng : Nat → Nat)
    (prog : List (Nat × Nat)) :
    ∀ i state,
      (∀ p ∈ prog, p.1 < OP_COUNT) →
      (∀ ins ∈ encodeProgGo c rng i state prog, ins.nonce ≠ 0) →
      decodeGo c state (encodeProgGo c rng i state prog) = prog := by
  induction prog with
  | nil => intro i state _ _; rfl
  | cons p rest ih =>
    intro i state hops hnz
    have hp := hops p (List.mem_cons_self p rest)
    have hn : (rng i % W64 ^^^ stepState c.key state) ≠ 0 := by
      have := hnz (encode c p.1 p.2 (stepState c.key state)
        (rng i % W64 ^^^ stepState c.key state))
        (by simp [encodeProgGo])
      simpa [encode] using this
    simp only [encodeProgGo, decodeGo]
    rw [decodeInstr_encode c hWF p.2 (stepState c.key state) _ hp hn]
    rw [ih (i + 1) (stepState c.key state)
      (fun q hq => hops q (List.mem_cons_of_mem _ hq))
      (fun ins hins => hnz ins (by simp [encodeProgGo]; right; exact hins))]

/-- C1: encoding a plain program with `encode_program` and decoding it
positionally with the decoder of `execute`/`decode_for_jit` under the
same key tables and seed restores every original `{opcode, operand}`
pair (for the non-degenerate case in which every generated nonce is
non-zero, which is the claim's own exclusion), and any instruction whose
nonce is `0` decodes to its stored opcode and operand unchanged. -/
theorem enc_round_trip (c : EncCtx) (hWF : c.WF) (seed : Nat)
    (rng : Nat → Nat) (prog : List (Nat × Nat))
    (hops : ∀ p ∈ prog, p.1 < OP_COUNT)
    (hnz : ∀ ins ∈ encodeProgram c seed rng prog, ins.nonce ≠ 0) :
    decodeForJit c seed (encodeProgram c seed rng prog) = prog ∧
    ∀ st ins, ins.nonce = 0 → decodeInstr c st ins = (ins.op, ins.operand) := by
  constructor
  · exact decodeGo_encodeProgGo c hWF rng prog 0 (state0 c.key seed) hops hnz
  · intro st ins h0
    simp [decodeInstr, h0]

/-- The identity encoding context used for concrete witnesses. -/
def idCtx : EncCtx := ⟨0, id, id, id, id⟩

/-- Witness for C1 at a concrete program, seed and nonce stream. -/
theorem enc_round_trip_witness :
    decodeForJit idCtx 5 (encodeProgram idCtx 5 (fun _ => 0) [(0, 10), (6, 0)])
      = [(0, 10), (6, 0)] ∧
    decodeInstr idCtx 7 ⟨99, 3, 0⟩ = (99, 3) := by
  have h := enc_round_trip idCtx (by decide) 5 (fun _ => 0) [(0, 10), (6, 0)]
    (by decide) (by decide)
  exact ⟨h.1, h.2 7 ⟨99, 3, 0⟩ rfl⟩

/-- Function `encode` as the specification §4.1 words it: result opcode
`= layer2[layer1[opcode]] XOR low_byte(key XOR nonce)` (no XOR with the
low byte of the nonce), operand `= operand XOR (mix * GOLDEN64)`. -/
def encodeSpec (c : EncCtx) (op operand key nonce : Nat) : Instruction :=
  let mapped := c.opMap2 (c.opMap (op % 256) % 256) % 256
  let mix := key ^^^ nonce
  { op := mapped ^^^ mix % 256
    operand := operand ^^^ mix * GOLDEN64 % W64
    nonce := nonce }

/-- C5 counterexample: with identity tables, `opcode = 0`, `operand = 0`,
`key = 0`, `nonce = 1` the implementation's extra
`mapped ^= (uint8_t)nonce` step makes the encoded opcode byte `0`,
whereas the claimed formula gives `1`. -/
theorem encode_ne_spec_formula :
    encode idCtx 0 0 0 1 ≠ encodeSpec idCtx 0 0 0 1 := by decide

/-- C5 amended: the encoded opcode byte is
`layer2[layer1[opcode]] XOR low_byte(nonce) XOR low_byte(key XOR nonce)`,
which simplifies to `layer2[layer1[opcode]] XOR low_byte(key)`; the
operand mask is as the claim states it. -/
theorem encode_characterization (c : EncCtx) (op operand key nonce : Nat) :
    encode c op operand key nonce =
      { op := c.opMap2 (c.opMap (op % 256) % 256) % 256 ^^^ key % 256
        operand := operand ^^^ (key ^^^ nonce) * GOLDEN64 % W64
        nonce := nonce } := by
  simp only [encode, Instruction.mk.injEq, and_true, true_and]
  rw [xor_mod256 key nonce, Nat.xor_assoc]
  congr 1
  rw [Nat.xor_comm (key % 256) (nonce % 256), ← Nat.xor_assoc,
    Nat.xor_self, Nat.zero_xor]

/-! ## Host operation bridge (JNI boundary)

The hosting managed runtime is external to the sources under
verification (spec §6 lists the host primitives as supplied by the
embedding environment).  It is modelled as a state (`Host`) holding the
pending-exception channel, a heap of arrays, a log of observable writes
and prints, together with a pure oracle (`HostOracle`) for the
resolution and invocation primitives whose behaviour the VM only
observes. -/

/-- Host-domain error kinds raised through the propagated-error
channel. -/
inductive Exc
  | arith
  | npe
  | aioob
  | classCast
  | runtime
  | negSize
  | resolveFail
  | thrown (h : Nat)
deriving Repr, DecidableEq

/-- Element kind of a host array (`PrimitiveArrayKind` plus object
arrays). -/
inductive ArrKind
  | bool
  | byte
  | char
  | short
  | int
  | long
  | float
  | double
  | obj
deriving Repr, DecidableEq

/-- One host array: element kind and raw element patterns. -/
structure HArr where
  kind : ArrKind
  elems : List Nat
deriving Repr, DecidableEq

/-- Pure oracle for the host primitives that resolve classes, members
and signatures and perform invocations.  Handles are `Nat`s with `0`
playing `nullptr`. -/
structure HostOracle where
  findClass : Nat → Nat
  allocObj : Nat → Nat
  isInstance : Nat → Nat → Bool
  newString : Nat → Nat
  methodTypeOf : Nat → Nat
  methodHandleOf : Nat → Nat
  excRef : Exc → Nat
  resolveStaticField : Nat → Bool
  resolveInstanceField : Nat → Bool
  staticFieldVal : Nat → Nat
  instanceFieldVal : Nat → Nat → Nat
  resolveMethod : Nat → Bool
  callRet : Nat → Nat → Nat → List Nat → Nat
  callExc : Nat → Nat → Nat → List Nat → Option Exc

/-- The host state threaded through one `execute` call. -/
structure Host where
  oracle : HostOracle
  pending : Option Exc
  arrays : List HArr
  staticWrites : List (Nat × Nat)
  fieldWrites : List (Nat × Nat × Nat)
  out : List Nat

/-- Record a pending host exception (JNI `Throw`/`ThrowNew`). -/
def Host.throwExc (h : Host) (e : Exc) : Host := { h with pending := some e }

/-- Look up `FindClass` through the class cache (`get_cached_class`);
the cache is semantically transparent because the oracle is constant,
and a failed lookup leaves a pending host error. -/
def Host.findCls (h : Host) (name : Nat) : Nat × Host :=
  let cl := h.oracle.findClass name
  (cl, if cl = 0 then h.throwExc .resolveFail else h)

/-- Dereference an array handle (`0` is null, other handles index the
heap). -/
def Host.getArr (h : Host) (handle : Nat) : Option HArr :=
  if handle = 0 then none else h.arrays.get? (handle - 1)

/-- Overwrite one element of an array on the heap. -/
def Host.setArrElem (h : Host) (handle idx v : Nat) : Host :=
  { h with arrays :=
      (h.arrays.modify (fun a => { a with elems := a.elems.set idx v })
        (handle - 1)) }

/-- Allocate a fresh zero-filled array, returning its handle. -/
def Host.allocArr (h : Host) (k : ArrKind) (len : Nat) : Nat × Host :=
  (h.arrays.length + 1,
   { h with arrays := h.arrays ++ [⟨k, List.replicate len 0⟩] })

/-- IEEE-754 float semantics used by the typed handlers, abstracted as
pure functions on bit patterns (32-bit patterns for `float`, 64-bit for
`double`); floating point itself is not modelled. -/
structure FloatSem where
  fadd : Nat → Nat → Nat
  fsub : Nat → Nat → Nat
  fmul : Nat → Nat → Nat
  fdiv : Nat → Nat → Nat
  frem : Nat → Nat → Nat
  fneg : Nat → Nat
  dadd : Nat → Nat → Nat
  dsub : Nat → Nat → Nat
  dmul : Nat → Nat → Nat
  ddiv : Nat → Nat → Nat
  drem : Nat → Nat → Nat
  dneg : Nat → Nat
  isNan32 : Nat → Bool
  isNan64 : Nat → Bool
  fgt : Nat → Nat → Bool
  flt : Nat → Nat → Bool
  dgt : Nat → Nat → Bool
  dlt : Nat → Nat → Bool
  i2f : Nat → Nat
  i2d : Nat → Nat
  l2f : Nat → Nat
  l2d : Nat → Nat
  f2i : Nat → Nat
  f2l : Nat → Nat
  f2d : Nat → Nat
  d2i : Nat → Nat
  d2l : Nat → Nat
  d2f : Nat → Nat

/-- Type tag of a field or method-argument descriptor after parsing
(`parse_method_sig` collapses `Z/B/C/S/I` to the int path and all
references to the object path). -/
inductive JTy
  | int
  | long
  | float
  | double
  | obj
deriving Repr, DecidableEq

/-- Return-type tag of a parsed method signature. -/
inductive RTy
  | void
  | int
  | long
  | float
  | double
  | obj
deriving Repr, DecidableEq

/-- A `FieldRef` with its descriptor's leading type tag
(`field_sig[0]`); names are carried only through the resolution
oracle. -/
structure FieldRefM where
  sig : JTy
deriving Repr, DecidableEq

/-- A `MethodRef` with its parsed signature (modelling
`parse_method_sig` plus the per-signature cache, which is semantically
transparent). -/
structure MethodRefM where
  argTypes : List JTy
  ret : RTy
deriving Repr, DecidableEq

/-- A `MultiArrayInfo` entry: dimension count and class name id. -/
structure MultiArrayInfoM where
  dims : Nat
  className : Nat
deriving Repr, DecidableEq

/-- A `TableSwitch` descriptor. -/
structure TableSwitchM where
  low : Int
  high : Int
  defaultTarget : Nat
  targets : List Nat
deriving Repr, DecidableEq

/-- A `LookupSwitch` descriptor. -/
structure LookupSwitchM where
  keys : List Int
  targets : List Nat
  defaultTarget : Nat
deriving Repr, DecidableEq

/-- A `ConstantPoolEntry`.  Values are bit patterns; strings, classes,
method types and method handles are carried as ids resolved through the
oracle.  For `TYPE_METHOD_HANDLE` the `valid` flag records whether the
stored descriptor parses and carries a supported tag (the source halts
on a malformed or unsupported descriptor). -/
inductive CPEntry
  | int (v : Nat)
  | float (bits : Nat)
  | long (v : Nat)
  | double (bits : Nat)
  | str (id : Nat)
  | cls (id : Nat)
  | methodHandle (valid : Bool) (id : Nat)
  | methodType (id : Nat)
deriving Repr, DecidableEq

/-- The read-only inputs of one `execute` call: decode context, float
semantics, the encoded program and the caller-supplied auxiliary
reference tables (null pointers are modelled by empty lists). -/
structure ExecEnv where
  ctx : EncCtx
  F : FloatSem
  code : List Instruction
  seed : Nat
  pool : List CPEntry
  methodRefs : List MethodRefM
  fieldRefs : List FieldRefM
  multiRefs : List MultiArrayInfoM
  tableRefs : List TableSwitchM
  lookupRefs : List LookupSwitchM

/-- The mutable interpreter state: operand stack (head of the list is
the top of stack, the length is `sp`), caller locals, program counter,
decode state register and host state. -/
structure Cfg where
  stack : List Nat
  locals : List Nat
  pc : Nat
  state : Nat
  host : Host

/-- Result of one dispatch step: either continue with a new
configuration or halt with the returned word. -/
inductive StepRes
  | cont (c : Cfg)
  | done (v : Nat) (c : Cfg)

/-- Return value at `halt`: top of stack, or 0 when empty. -/
def topOrZero (s : List Nat) : Nat := s.headD 0

/-- The `halt` exit: `return (sp > 0) ? stack[sp - 1] : 0`. -/
def haltRes (c : Cfg) : StepRes := .done (topOrZero c.stack) c

/-! ## Interpreter core handlers (the `do_*` labels of `execute`)

Each handler mirrors one labelled block of the threaded interpreter in
micro_vm.cpp.  Guard failures fall through to `.cont` with the
configuration unchanged, exactly as the source falls through to
`goto dispatch`. -/

/-- Wrap an `int32` computation and store it as a sign-extended
64-bit word. -/
def wrap32s (i : Int) : Nat := sext32 (i % (2 ^ 32 : Int)).toNat

def do_push (c : Cfg) (tmp : Nat) : StepRes :=
  if c.stack.length < 256 then .cont { c with stack := tmp :: c.stack }
  else .cont c

/-- Push a fixed constant under the 256-slot bound (the
`do_fconst_*`, `do_dconst_*`, `do_lconst_*` blocks; float and double
literals appear as their compile-time IEEE-754 bit patterns). -/
def do_const (c : Cfg) (v : Nat) : StepRes :=
  if c.stack.length < 256 then .cont { c with stack := v :: c.stack }
  else .cont c

def do_add (c : Cfg) : StepRes :=
  match c.stack with
  | b :: a :: rest => .cont { c with stack := add64 a b :: rest }
  | _ => .cont c

def do_sub (c : Cfg) : StepRes :=
  match c.stack with
  | b :: a :: rest => .cont { c with stack := sub64 a b :: rest }
  | _ => .cont c

def do_mul (c : Cfg) : StepRes :=
  match c.stack with
  | b :: a :: rest => .cont { c with stack := mul64 a b :: rest }
  | _ => .cont c

/-- Division halts with a pending `ArithmeticException` on a zero
divisor, leaving the stack as it was. -/
def do_div (c : Cfg) : StepRes :=
  match c.stack with
  | b :: a :: rest =>
    if b = 0 then haltRes { c with host := c.host.throwExc .arith }
    else .cont { c with stack := divT64 a b :: rest }
  | _ => .cont c

def do_print (c : Cfg) : StepRes :=
  match c.stack with
  | v :: rest =>
    .cont { c with stack := rest,
                   host := { c.host with out := c.host.out ++ [v] } }
  | _ => .cont c

def do_swap (c : Cfg) : StepRes :=
  match c.stack with
  | b :: a :: rest => .cont { c with stack := a :: b :: rest }
  | _ => .cont c

def do_dup (c : Cfg) : StepRes :=
  match c.stack with
  | a :: rest =>
    if c.stack.length < 256 then .cont { c with stack := a :: a :: rest }
    else .cont c
  | _ => .cont c

def do_pop (c : Cfg) : StepRes :=
  match c.stack with
  | _ :: rest => .cont { c with stack := rest }
  | _ => .cont c

/-- Pops two slots when available, one otherwise (`do_pop2`). -/
def do_pop2 (c : Cfg) : StepRes :=
  match c.stack with
  | _ :: _ :: rest => .cont { c with stack := rest }
  | _ :: rest => .cont { c with stack := rest }
  | _ => .cont c

def do_dup_x1 (c : Cfg) : StepRes :=
  match c.stack with
  | v1 :: v2 :: rest =>
    if c.stack.length < 256 then
      .cont { c with stack := v1 :: v2 :: v1 :: rest }
    else .cont c
  | _ => .cont c

def do_dup_x2 (c : Cfg) : StepRes :=
  match c.stack with
  | v1 :: v2 :: v3 :: rest =>
    if c.stack.length < 256 then
      .cont { c with stack := v1 :: v2 :: v3 :: v1 :: rest }
    else .cont c
  | _ => .cont c

def do_dup2 (c : Cfg) : StepRes :=
  match c.stack with
  | v1 :: v2 :: rest =>
    if c.stack.length + 1 < 256 then
      .cont { c with stack := v1 :: v2 :: v1 :: v2 :: rest }
    else .cont c
  | _ => .cont c

def do_dup2_x1 (c : Cfg) : StepRes :=
  match c.stack with
  | v1 :: v2 :: v3 :: rest =>
    if c.stack.length + 1 < 256 then
      .cont { c with stack := v1 :: v2 :: v3 :: v1 :: v2 :: rest }
    else .cont c
  | _ => .cont c

def do_dup2_x2 (c : Cfg) : StepRes :=
  match c.stack with
  | v1 :: v2 :: v3 :: v4 :: rest =>
    if c.stack.length + 1 < 256 then
      .cont { c with stack := v1 :: v2 :: v3 :: v4 :: v1 :: v2 :: rest }
    else .cont c
  | _ => .cont c

def do_load (c : Cfg) (tmp : Nat) : StepRes :=
  if c.stack.length < 256 ∧ tmp < 2 ^ 63 ∧ tmp < c.locals.length then
    .cont { c with stack := c.locals.getD tmp 0 :: c.stack }
  else .cont c

def do_store (c : Cfg) (tmp : Nat) : StepRes :=
  match c.stack with
  | v :: rest =>
    if tmp < 2 ^ 63 ∧ tmp < c.locals.length then
      .cont { c with locals := c.locals.set tmp v, stack := rest }
    else .cont c
  | _ => .cont c

def do_iinc (c : Cfg) (tmp : Nat) : StepRes :=
  let idx := tmp % 2 ^ 32
  let inc := toS32 (tmp / 2 ^ 32)
  if idx < c.locals.length then
    .cont { c with locals :=
      (c.locals.set idx (wrap32s (toS32 (c.locals.getD idx 0) + inc))) }
  else .cont c

def do_if_icmpeq (c : Cfg) (tmp : Nat) : StepRes :=
  match c.stack with
  | b :: a :: rest =>
    .cont { c with stack := rest, pc := if toS64 a = toS64 b then tmp else c.pc }
  | _ => .cont c

def do_if_icmpne (c : Cfg) (tmp : Nat) : StepRes :=
  match c.stack with
  | b :: a :: rest =>
    .cont { c with stack := rest, pc := if toS64 a ≠ toS64 b then tmp else c.pc }
  | _ => .cont c

def do_if_icmplt (c : Cfg) (tmp : Nat) : StepRes :=
  match c.stack with
  | b :: a :: rest =>
    .cont { c with stack := rest, pc := if toS64 a < toS64 b then tmp else c.pc }
  | _ => .cont c

def do_if_icmple (c : Cfg) (tmp : Nat) : StepRes :=
  match c.stack with
  | b :: a :: rest =>
    .cont { c with stack := rest, pc := if toS64 a ≤ toS64 b then tmp else c.pc }
  | _ => .cont c

def do_if_icmpgt (c : Cfg) (tmp : Nat) : StepRes :=
  match c.stack with
  | b :: a :: rest =>
    .cont { c with stack := rest, pc := if toS64 b < toS64 a then tmp else c.pc }
  | _ => .cont c

def do_if_icmpge (c : Cfg) (tmp : Nat) : StepRes :=
  match c.stack with
  | b :: a :: rest =>
    .cont { c with stack := rest, pc := if toS64 b ≤ toS64 a then tmp else c.pc }
  | _ => .cont c

def do_ifnull (c : Cfg) (tmp : Nat) : StepRes :=
  match c.stack with
  | a :: rest =>
    .cont { c with stack := rest, pc := if toS64 a = 0 then tmp else c.pc }
  | _ => .cont c

def do_ifnonnull (c : Cfg) (tmp : Nat) : StepRes :=
  match c.stack with
  | a :: rest =>
    .cont { c with stack := rest, pc := if toS64 a ≠ 0 then tmp else c.pc }
  | _ => .cont c

def do_goto (c : Cfg) (tmp : Nat) : StepRes := .cont { c with pc := tmp }

def do_and (c : Cfg) : StepRes :=
  match c.stack with
  | b :: a :: rest => .cont { c with stack := (a &&& b) :: rest }
  | _ => .cont c

def do_or (c : Cfg) : StepRes :=
  match c.stack with
  | b :: a :: rest => .cont { c with stack := (a ||| b) :: rest }
  | _ => .cont c

def do_xor (c : Cfg) : StepRes :=
  match c.stack with
  | b :: a :: rest => .cont { c with stack := (a ^^^ b) :: rest }
  | _ => .cont c

def do_shl (c : Cfg) : StepRes :=
  match c.stack with
  | b :: a :: rest => .cont { c with stack := shl64 a b :: rest }
  | _ => .cont c

def do_shr (c : Cfg) : StepRes :=
  match c.stack with
  | b :: a :: rest => .cont { c with stack := sar64 a b :: rest }
  | _ => .cont c

def do_ushr (c : Cfg) : StepRes :=
  match c.stack with
  | b :: a :: rest => .cont { c with stack := lshr64 a b :: rest }
  | _ => .cont c

/-- Unary in-place rewrite of the top slot (the conversion blocks
`do_i2l`, `do_i2b`, ..., and `do_neg`/`do_lneg`). -/
def do_conv (c : Cfg) (f : Nat → Nat) : StepRes :=
  match c.stack with
  | a :: rest => .cont { c with stack := f a :: rest }
  | _ => .cont c

def do_irem (c : Cfg) : StepRes :=
  match c.stack with
  | b :: a :: rest =>
    if toS64 b ≠ 0 then .cont { c with stack := remT32 a b :: rest }
    else .cont { c with stack := 0 :: rest }
  | _ => .cont c

def do_lrem (c : Cfg) : StepRes :=
  match c.stack with
  | b :: a :: rest =>
    if toS64 b ≠ 0 then .cont { c with stack := remT64 a b :: rest }
    else .cont { c with stack := 0 :: rest }
  | _ => .cont c

def do_frem (F : FloatSem) (c : Cfg) : StepRes :=
  match c.stack with
  | b :: a :: rest =>
    .cont { c with stack := sext32 (F.frem (a % 2 ^ 32) (b % 2 ^ 32)) :: rest }
  | _ => .cont c

def do_drem (F : FloatSem) (c : Cfg) : StepRes :=
  match c.stack with
  | b :: a :: rest =>
    .cont { c with stack := F.drem (a % W64) (b % W64) % W64 :: rest }
  | _ => .cont c

/-- Binary float operation on the low-32-bit patterns of the two top
slots, result sign-extended (the `do_fadd` .. `do_fdiv` blocks). -/
def do_fbin (c : Cfg) (f : Nat → Nat → Nat) : StepRes :=
  match c.stack with
  | b :: a :: rest =>
    .cont { c with stack := sext32 (f (a % 2 ^ 32) (b % 2 ^ 32)) :: rest }
  | _ => .cont c

/-- Binary double operation on the two top slots
(the `do_dadd` .. `do_ddiv` blocks). -/
def do_dbin (c : Cfg) (f : Nat → Nat → Nat) : StepRes :=
  match c.stack with
  | b :: a :: rest =>
    .cont { c with stack := f (a % W64) (b % W64) % W64 :: rest }
  | _ => .cont c

def do_lcmp (c : Cfg) : StepRes :=
  match c.stack with
  | b :: a :: rest =>
    let r : Nat :=
      if toS64 b < toS64 a then 1
      else if toS64 a < toS64 b then ofS64 (-1) else 0
    .cont { c with stack := r :: rest }
  | _ => .cont c

/-- Float comparison; `nanRes` is the result pushed on a NaN operand
(`-1` for `FCMPL`, `+1` for `FCMPG`). -/
def do_fcmp (F : FloatSem) (c : Cfg) (nanRes : Nat) : StepRes :=
  match c.stack with
  | bb :: ab :: rest =>
    let a := ab % 2 ^ 32
    let b := bb % 2 ^ 32
    let r : Nat :=
      if F.isNan32 a || F.isNan32 b then nanRes
      else if F.fgt a b then 1
      else if F.flt a b then ofS64 (-1) else 0
    .cont { c with stack := r :: rest }
  | _ => .cont c

/-- Double comparison (`DCMPL`/`DCMPG`). -/
def do_dcmp (F : FloatSem) (c : Cfg) (nanRes : Nat) : StepRes :=
  match c.stack with
  | bb :: ab :: rest =>
    let a := ab % W64
    let b := bb % W64
    let r : Nat :=
      if F.isNan64 a || F.isNan64 b then nanRes
      else if F.dgt a b then 1
      else if F.dlt a b then ofS64 (-1) else 0
    .cont { c with stack := r :: rest }
  | _ => .cont c

/-! ### Bridge handlers (array, object, field, method instructions) -/

/-- Value extension applied when loading an element of a given kind
(`jbyte`/`jshort`/`jint` sign-extend, `jchar` zero-extends). -/
def kindExt : ArrKind → Nat → Nat
  | .int, v => sext32 v
  | .long, v => v % W64
  | .float, v => sext32 v
  | .double, v => v % W64
  | .byte, v => sext8 v
  | .char, v => v % 2 ^ 16
  | .short, v => sext16 v
  | .bool, v => v % 2 ^ 8
  | .obj, v => v % W64

/-- Truncation applied when storing an element of a given kind. -/
def kindTrunc : ArrKind → Nat → Nat
  | .int, v => v % 2 ^ 32
  | .long, v => v % W64
  | .float, v => v % 2 ^ 32
  | .double, v => v % W64
  | .byte, v => v % 2 ^ 8
  | .char, v => v % 2 ^ 16
  | .short, v => v % 2 ^ 16
  | .bool, v => v % 2 ^ 8
  | .obj, v => v % W64

/-- Primitive array load (`do_iaload` .. `do_saload`): a null handle
raises NPE and continues, an out-of-range index raises
`ArrayIndexOutOfBoundsException` and continues, a kind mismatch makes
the array cache return null so the access is silently skipped; a
dangling handle is undefined behaviour in the source and modelled as a
silent skip.  The pinned-buffer cache write-back is transparent within
one call and modelled as direct heap access. -/
def do_arr_load (k : ArrKind) (c : Cfg) : StepRes :=
  match c.stack with
  | ib :: ab :: rest =>
    let c1 := { c with stack := rest }
    let idx := toS32 ib
    if ab = 0 then .cont { c1 with host := c1.host.throwExc .npe }
    else match c1.host.getArr ab with
      | none => .cont c1
      | some arr =>
        if arr.kind ≠ k then .cont c1
        else if idx < 0 ∨ (arr.elems.length : Int) ≤ idx then
          .cont { c1 with host := c1.host.throwExc .aioob }
        else .cont { c1 with stack := kindExt k (arr.elems.getD idx.toNat 0) :: rest }
  | _ => .cont c

/-- Primitive array store (`do_iastore` .. `do_sastore`); same failure
policy as `do_arr_load`, always continuing with the next instruction. -/
def do_arr_store (k : ArrKind) (c : Cfg) : StepRes :=
  match c.stack with
  | vb :: ib :: ab :: rest =>
    let c1 := { c with stack := rest }
    let idx := toS32 ib
    if ab = 0 then .cont { c1 with host := c1.host.throwExc .npe }
    else match c1.host.getArr ab with
      | none => .cont c1
      | some arr =>
        if arr.kind ≠ k then .cont c1
        else if idx < 0 ∨ (arr.elems.length : Int) ≤ idx then
          .cont { c1 with host := c1.host.throwExc .aioob }
        else .cont { c1 with host := c1.host.setArrElem ab idx.toNat (kindTrunc k vb) }
  | _ => .cont c

/-- Object array load through the object-element cache
(`do_aaload`); a null element is not pushed. -/
def do_aaload (c : Cfg) : StepRes :=
  match c.stack with
  | ib :: ab :: rest =>
    let c1 := { c with stack := rest }
    let idx := toS32 ib
    if ab = 0 then .cont { c1 with host := c1.host.throwExc .npe }
    else match c1.host.getArr ab with
      | none => .cont c1
      | some arr =>
        if arr.kind ≠ ArrKind.obj then .cont c1
        else if idx < 0 ∨ (arr.elems.length : Int) ≤ idx then
          .cont { c1 with host := c1.host.throwExc .aioob }
        else
          let val := arr.elems.getD idx.toNat 0
          if val = 0 then .cont c1
          else .cont { c1 with stack := val :: rest }
  | _ => .cont c

/-- Object array store (`do_aastore`, via `SetObjectArrayElement`,
whose own null/bounds checks raise the pending error). -/
def do_aastore (c : Cfg) : StepRes :=
  match c.stack with
  | vb :: ib :: ab :: rest =>
    let c1 := { c with stack := rest }
    let idx := toS32 ib
    if ab = 0 then .cont { c1 with host := c1.host.throwExc .npe }
    else match c1.host.getArr ab with
      | none => .cont c1
      | some arr =>
        if arr.kind ≠ ArrKind.obj then .cont c1
        else if idx < 0 ∨ (arr.elems.length : Int) ≤ idx then
          .cont { c1 with host := c1.host.throwExc .aioob }
        else .cont { c1 with host := c1.host.setArrElem ab idx.toNat (vb % W64) }
  | _ => .cont c

def do_new (c : Cfg) (tmp : Nat) : StepRes :=
  if c.stack.length < 256 then
    let r := c.host.findCls tmp
    if r.1 ≠ 0 then
      .cont { c with host := r.2, stack := r.2.oracle.allocObj r.1 :: c.stack }
    else .cont { c with host := r.2 }
  else .cont c

def do_anewarray (c : Cfg) (tmp : Nat) : StepRes :=
  match c.stack with
  | lb :: rest =>
    let len := toS32 lb
    let r := c.host.findCls tmp
    let ah :=
      if r.1 = 0 then (0, r.2)
      else if len < 0 then (0, r.2.throwExc .negSize)
      else r.2.allocArr .obj len.toNat
    .cont { c with stack := ah.1 :: rest, host := ah.2 }
  | _ => .cont c

/-- Primitive array kind codes of `OP_NEWARRAY` (JVM atype values
4..11). -/
def newarrayKind : Nat → Option ArrKind
  | 4 => some .bool
  | 5 => some .char
  | 6 => some .float
  | 7 => some .double
  | 8 => some .byte
  | 9 => some .short
  | 10 => some .int
  | 11 => some .long
  | _ => none

def do_newarray (c : Cfg) (tmp : Nat) : StepRes :=
  match c.stack with
  | lb :: rest =>
    let len := toS32 lb
    let ah :=
      match newarrayKind tmp with
      | none => (0, c.host)
      | some k =>
        if len < 0 then (0, c.host.throwExc .negSize)
        else c.host.allocArr k len.toNat
    .cont { c with stack := ah.1 :: rest, host := ah.2 }
  | _ => .cont c

/-- The `do_multianewarray` block: pops up to `dims` sizes (bounded by
the stack depth), resolves the class, allocates the first dimension
and pushes the handle unconditionally — there is no 256-slot bound on
this push in the source. -/
def do_multianewarray (E : ExecEnv) (c : Cfg) (tmp : Nat) : StepRes :=
  let info := E.multiRefs.getD tmp ⟨0, 0⟩
  let k := min info.dims c.stack.length
  let sizes0 : Nat :=
    if 0 < info.dims ∧ k = info.dims then c.stack.getD (info.dims - 1) 0 else 0
  let rest := c.stack.drop k
  let len : Int := if 0 < info.dims then toS32 sizes0 else 0
  let r := c.host.findCls info.className
  let ah :=
    if r.1 = 0 then (0, r.2)
    else if len < 0 then (0, r.2.throwExc .negSize)
    else r.2.allocArr .obj len.toNat
  .cont { c with stack := ah.1 :: rest, host := ah.2 }

/-- The `do_checkcast` block: raises `ClassCastException` on mismatch
without popping the operand. -/
def do_checkcast (c : Cfg) (tmp : Nat) : StepRes :=
  match c.stack with
  | ob :: _ =>
    if ob ≠ 0 then
      let r := c.host.findCls tmp
      if r.1 ≠ 0 then
        if r.2.oracle.isInstance ob r.1 then .cont { c with host := r.2 }
        else .cont { c with host := r.2.throwExc .classCast }
      else .cont { c with host := r.2 }
    else .cont c
  | _ => .cont c

def do_instanceof (c : Cfg) (tmp : Nat) : StepRes :=
  match c.stack with
  | ob :: rest =>
    let r := c.host.findCls tmp
    let res := ob ≠ 0 ∧ r.1 ≠ 0 ∧ r.2.oracle.isInstance ob r.1
    .cont { c with stack := (if res then 1 else 0) :: rest, host := r.2 }
  | _ => .cont c

/-- Push conversion for a typed field read (`jint` widens
sign-extended, `float` bits are sign-extended as `int32`). -/
def fieldExt : JTy → Nat → Nat
  | .int, v => sext32 v
  | .float, v => sext32 v
  | .long, v => v % W64
  | .double, v => v % W64
  | .obj, v => v % W64

def do_getstatic (E : ExecEnv) (c : Cfg) (tmp : Nat) : StepRes :=
  if c.stack.length < 256 then
    let ref := E.fieldRefs.getD tmp ⟨.obj⟩
    if c.host.oracle.resolveStaticField tmp then
      .cont { c with stack := fieldExt ref.sig (c.host.oracle.staticFieldVal tmp) :: c.stack }
    else .cont { c with host := c.host.throwExc .resolveFail }
  else .cont c

def do_putstatic (c : Cfg) (tmp : Nat) : StepRes :=
  match c.stack with
  | v :: rest =>
    if c.host.oracle.resolveStaticField tmp then
      .cont { c with stack := rest,
                     host := { c.host with staticWrites := c.host.staticWrites ++ [(tmp, v)] } }
    else .cont { c with stack := rest, host := c.host.throwExc .resolveFail }
  | _ => .cont c

/-- The `do_getfield` block: a null receiver raises NPE and jumps to
`halt` immediately. -/
def do_getfield (E : ExecEnv) (c : Cfg) (tmp : Nat) : StepRes :=
  if 1 ≤ c.stack.length ∧ c.stack.length < 256 then
    match c.stack with
    | ob :: rest =>
      if ob = 0 then
        haltRes { c with stack := rest, host := c.host.throwExc .npe }
      else
        let ref := E.fieldRefs.getD tmp ⟨.obj⟩
        if c.host.oracle.resolveInstanceField tmp then
          .cont { c with stack := fieldExt ref.sig (c.host.oracle.instanceFieldVal tmp ob) :: rest }
        else .cont { c with stack := rest, host := c.host.throwExc .resolveFail }
    | _ => .cont c
  else .cont c

/-- The `do_putfield` block: a null receiver raises NPE and halts; an
operand-count guard failure clears the stack (`sp = 0`). -/
def do_putfield (c : Cfg) (tmp : Nat) : StepRes :=
  match c.stack with
  | v :: ob :: rest =>
    if ob = 0 then
      haltRes { c with stack := rest, host := c.host.throwExc .npe }
    else if c.host.oracle.resolveInstanceField tmp then
      .cont { c with stack := rest,
                     host := { c.host with fieldWrites := c.host.fieldWrites ++ [(tmp, ob, v)] } }
    else .cont { c with stack := rest, host := c.host.throwExc .resolveFail }
  | _ => .cont { c with stack := [] }

/-- Truncation of a popped word into a typed invocation argument. -/
def convArg : JTy → Nat → Nat
  | .int, v => v % 2 ^ 32
  | .long, v => v % W64
  | .float, v => v % 2 ^ 32
  | .double, v => v % W64
  | .obj, v => v % W64

/-- Extension of a typed invocation result pushed back on the stack. -/
def convRet : RTy → Nat → Nat
  | .void, v => v
  | .int, v => sext32 v
  | .long, v => v % W64
  | .float, v => sext32 v
  | .double, v => v % W64
  | .obj, v => v % W64

/-- The `invoke_method` helper: an operand-count guard failure clears
the stack (`sp = 0`); a null receiver raises NPE after the operands
were popped; the host call may leave a pending exception and its result
is pushed unguarded for non-void signatures.  The VM-state
snapshot/restore around the call is semantically transparent here. -/
def invoke_method (op : Nat) (ref : MethodRefM) (refIdx : Nat) (c : Cfg) : StepRes :=
  let isStatic := op = 38 ∨ op = 112
  let num := ref.argTypes.length
  let need := num + (if isStatic then 0 else 1)
  if c.stack.length < need then .cont { c with stack := [] }
  else
    let args := List.zipWith convArg ref.argTypes (c.stack.take num).reverse
    let s1 := c.stack.drop num
    let obj := if isStatic then 0 else s1.headD 0
    let s2 := if isStatic then s1 else s1.drop 1
    let c1 := { c with stack := s2 }
    if ¬ isStatic ∧ obj = 0 then .cont { c1 with host := c1.host.throwExc .npe }
    else if ¬ c1.host.oracle.resolveMethod refIdx then .cont c1
    else
      let r := c1.host.oracle.callRet op refIdx obj args
      let h2 :=
        match c1.host.oracle.callExc op refIdx obj args with
        | some e => c1.host.throwExc e
        | none => c1.host
      match ref.ret with
      | .void => .cont { c1 with host := h2 }
      | rt => .cont { c1 with host := h2, stack := convRet rt r :: s2 }

/-- The `do_invokestatic` .. `do_invokedynamic` blocks: an invalid
method-reference index raises a `RuntimeException` and halts. -/
def do_invoke (E : ExecEnv) (op : Nat) (c : Cfg) (tmp : Nat) : StepRes :=
  if tmp < E.methodRefs.length then
    invoke_method op (E.methodRefs.getD tmp ⟨[], .void⟩) tmp c
  else haltRes { c with host := c.host.throwExc .runtime }

/-- The `do_ldc` block (one-word constants). -/
def do_ldc (E : ExecEnv) (c : Cfg) (tmp : Nat) : StepRes :=
  if c.stack.length < 256 ∧ tmp < E.pool.length then
    match E.pool.getD tmp (.int 0) with
    | .int v => .cont { c with stack := sext32 v :: c.stack }
    | .float bits => .cont { c with stack := sext32 bits :: c.stack }
    | .str id => .cont { c with stack := c.host.oracle.newString id :: c.stack }
    | .cls id =>
      let r := c.host.findCls id
      .cont { c with host := r.2, stack := r.1 :: c.stack }
    | .methodType id =>
      .cont { c with stack := c.host.oracle.methodTypeOf id :: c.stack }
    | .methodHandle valid id =>
      if valid then .cont { c with stack := c.host.oracle.methodHandleOf id :: c.stack }
      else haltRes { c with host := c.host.throwExc .runtime }
    | .long _ => haltRes c
    | .double _ => haltRes c
  else .cont c

/-- The `do_ldc2_w` block (two-word constants). -/
def do_ldc2_w (E : ExecEnv) (c : Cfg) (tmp : Nat) : StepRes :=
  if c.stack.length < 256 ∧ tmp < E.pool.length then
    match E.pool.getD tmp (.int 0) with
    | .long v => .cont { c with stack := v % W64 :: c.stack }
    | .double bits => .cont { c with stack := bits % W64 :: c.stack }
    | .methodType id =>
      .cont { c with stack := c.host.oracle.methodTypeOf id :: c.stack }
    | .methodHandle valid id =>
      if valid then .cont { c with stack := c.host.oracle.methodHandleOf id :: c.stack }
      else haltRes { c with host := c.host.throwExc .runtime }
    | _ => haltRes c
  else .cont c

/-- The `do_athrow` block: pops the throwable, forwards it to the host
throw primitive (NPE if null) and halts. -/
def do_athrow (c : Cfg) : StepRes :=
  match c.stack with
  | e :: rest =>
    let h := if e = 0 then c.host.throwExc .npe else c.host.throwExc (.thrown e)
    haltRes { c with stack := rest, host := h }
  | _ => haltRes c

/-- The `do_catch_handler`/`do_finally_handler` blocks: redirect the pc
when the target is below 256. -/
def do_catch_handler (c : Cfg) (tmp : Nat) : StepRes :=
  if tmp < 256 then .cont { c with pc := tmp } else .cont c

/-- The `do_exception_check` block: when a host exception is pending,
push its handle, clear it, and jump to the handler target. -/
def do_exception_check (c : Cfg) (tmp : Nat) : StepRes :=
  match c.host.pending with
  | some e =>
    let h := c.host.oracle.excRef e
    if h ≠ 0 ∧ c.stack.length < 256 then
      let c1 := { c with stack := h :: c.stack,
                         host := { c.host with pending := none } }
      if tmp < 256 then .cont { c1 with pc := tmp } else .cont c1
    else .cont c
  | none => .cont c

def do_exception_clear (c : Cfg) : StepRes :=
  .cont { c with host := { c.host with pending := none } }

def do_tableswitch (E : ExecEnv) (c : Cfg) (tmp : Nat) : StepRes :=
  match c.stack with
  | vb :: rest =>
    let ts := E.tableRefs.getD tmp ⟨0, 0, 0, []⟩
    let idx := toS32 vb
    let pc' :=
      if idx < ts.low ∨ ts.high < idx then ts.defaultTarget
      else ts.targets.getD (idx - ts.low).toNat 0
    .cont { c with stack := rest, pc := pc' }
  | _ => .cont c

/-- Linear first-match scan of a lookup-switch key list. -/
def lookupTarget : List Int → List Nat → Nat → Int → Nat
  | k :: krest, t :: trest, dflt, key =>
    if k = key then t else lookupTarget krest trest dflt key
  | _, _, dflt, _ => dflt

def do_lookupswitch (E : ExecEnv) (c : Cfg) (tmp : Nat) : StepRes :=
  match c.stack with
  | vb :: rest =>
    let ls := E.lookupRefs.getD tmp ⟨[], [], 0⟩
    .cont { c with stack := rest,
                   pc := lookupTarget ls.keys ls.targets ls.defaultTarget (toS32 vb) }
  | _ => .cont c

/-! ### Dispatch and the execute loop -/

/-- The dispatch switch of `execute`, branching on the decoded opcode;
any opcode not named by a case hits the `default: goto halt` arm.
The chaos-masking block before the switch toggles `op_map[0]` twice and
mutates only a dead variable, so it has no observable effect.

The switch in micro_vm.cpp also lists cases `OP_IREM` .. `OP_DCMPG`
whose enumerator values are absent from the `OpCode` enum of
micro_vm.hpp in this snapshot (which ends at `OP_EXCEPTION_CLEAR = 140`
with `OP_COUNT = 141`); they are modelled here at the successive values
`141 .. 152` in the order the switch lists them. -/
def dispatch (E : ExecEnv) (c : Cfg) (op tmp : Nat) : StepRes :=
  match op with
  | 0 => do_push c tmp
  | 1 => do_add c
  | 2 => do_sub c
  | 3 => do_mul c
  | 4 => do_div c
  | 5 => do_print c
  | 6 => haltRes c
  | 7 => .cont c
  | 8 => .cont c
  | 9 => .cont c
  | 10 => do_swap c
  | 11 => do_dup c
  | 12 => do_pop c
  | 13 => do_pop2 c
  | 14 => do_load c tmp
  | 15 => do_if_icmpeq c tmp
  | 16 => do_if_icmpne c tmp
  | 17 => do_goto c tmp
  | 18 => do_store c tmp
  | 19 => do_and c
  | 20 => do_or c
  | 21 => do_xor c
  | 22 => do_shl c
  | 23 => do_shr c
  | 24 => do_ushr c
  | 25 => do_if_icmplt c tmp
  | 26 => do_if_icmple c tmp
  | 27 => do_if_icmpgt c tmp
  | 28 => do_if_icmpge c tmp
  | 29 => do_conv c sext32
  | 30 => do_conv c sext8
  | 31 => do_conv c (fun v => v % 2 ^ 16)
  | 32 => do_conv c sext16
  | 33 => do_conv c neg64
  | 34 => do_load c tmp
  | 35 => do_store c tmp
  | 36 => do_aaload c
  | 37 => do_aastore c
  | 38 => do_invoke E 38 c tmp
  | 39 => do_load c tmp
  | 40 => do_load c tmp
  | 41 => do_load c tmp
  | 42 => do_store c tmp
  | 43 => do_store c tmp
  | 44 => do_store c tmp
  | 45 => do_add c
  | 46 => do_sub c
  | 47 => do_mul c
  | 48 => do_div c
  | 49 => do_fbin c E.F.fadd
  | 50 => do_fbin c E.F.fsub
  | 51 => do_fbin c E.F.fmul
  | 52 => do_fbin c E.F.fdiv
  | 53 => do_dbin c E.F.dadd
  | 54 => do_dbin c E.F.dsub
  | 55 => do_dbin c E.F.dmul
  | 56 => do_dbin c E.F.ddiv
  | 57 => do_ldc E c tmp
  | 58 => do_ldc E c tmp
  | 59 => do_ldc2_w E c tmp
  | 60 => do_const c 0
  | 61 => do_const c 0x3F800000
  | 62 => do_const c 0x40000000
  | 63 => do_const c 0
  | 64 => do_const c 0x3FF0000000000000
  | 65 => do_const c 0
  | 66 => do_const c 1
  | 67 => do_iinc c tmp
  | 68 => do_and c
  | 69 => do_or c
  | 70 => do_xor c
  | 71 => do_shl c
  | 72 => do_shr c
  | 73 => do_ushr c
  | 74 => do_conv c (fun v => sext32 (E.F.i2f (v % 2 ^ 32)))
  | 75 => do_conv c (fun v => E.F.i2d (v % 2 ^ 32) % W64)
  | 76 => do_conv c sext32
  | 77 => do_conv c (fun v => sext32 (E.F.l2f (v % W64)))
  | 78 => do_conv c (fun v => E.F.l2d (v % W64) % W64)
  | 79 => do_conv c (fun v => sext32 (E.F.f2i (v % 2 ^ 32)))
  | 80 => do_conv c (fun v => E.F.f2l (v % 2 ^ 32) % W64)
  | 81 => do_conv c (fun v => E.F.f2d (v % 2 ^ 32) % W64)
  | 82 => do_conv c (fun v => sext32 (E.F.d2i (v % W64)))
  | 83 => do_conv c (fun v => E.F.d2l (v % W64) % W64)
  | 84 => do_conv c (fun v => sext32 (E.F.d2f (v % W64)))
  | 85 => do_arr_load .int c
  | 86 => do_arr_load .long c
  | 87 => do_arr_load .float c
  | 88 => do_arr_load .double c
  | 89 => do_arr_load .byte c
  | 90 => do_arr_load .char c
  | 91 => do_arr_load .short c
  | 92 => do_arr_store .int c
  | 93 => do_arr_store .long c
  | 94 => do_arr_store .float c
  | 95 => do_arr_store .double c
  | 96 => do_arr_store .byte c
  | 97 => do_arr_store .char c
  | 98 => do_arr_store .short c
  | 99 => do_new c tmp
  | 100 => do_anewarray c tmp
  | 101 => do_newarray c tmp
  | 102 => do_multianewarray E c tmp
  | 103 => do_checkcast c tmp
  | 104 => do_instanceof c tmp
  | 105 => do_getstatic E c tmp
  | 106 => do_putstatic c tmp
  | 107 => do_getfield E c tmp
  | 108 => do_putfield c tmp
  | 109 => do_invoke E 109 c tmp
  | 110 => do_invoke E 110 c tmp
  | 111 => do_invoke E 111 c tmp
  | 112 => do_invoke E 112 c tmp
  | 113 => do_ifnull c tmp
  | 114 => do_ifnonnull c tmp
  | 115 => do_if_icmpeq c tmp
  | 116 => do_if_icmpne c tmp
  | 117 => do_tableswitch E c tmp
  | 118 => do_lookupswitch E c tmp
  | 119 => do_goto c tmp
  | 120 => do_ifnull c tmp
  | 121 => do_ifnonnull c tmp
  | 122 => do_if_icmpeq c tmp
  | 123 => do_if_icmpne c tmp
  | 124 => do_if_icmpeq c tmp
  | 125 => do_if_icmpne c tmp
  | 126 => do_if_icmplt c tmp
  | 127 => do_if_icmple c tmp
  | 128 => do_if_icmpgt c tmp
  | 129 => do_if_icmpge c tmp
  | 130 => do_dup_x1 c
  | 131 => do_dup_x2 c
  | 132 => do_dup2 c
  | 133 => do_dup2_x1 c
  | 134 => do_dup2_x2 c
  | 135 => do_athrow c
  | 136 => .cont c
  | 137 => do_catch_handler c tmp
  | 138 => do_catch_handler c tmp
  | 139 => do_exception_check c tmp
  | 140 => do_exception_clear c
  | 141 => do_irem c
  | 142 => do_lrem c
  | 143 => do_frem E.F c
  | 144 => do_drem E.F c
  | 145 => do_conv c neg64
  | 146 => do_conv c (fun v => sext32 (E.F.fneg (v % 2 ^ 32)))
  | 147 => do_conv c (fun v => E.F.dneg (v % W64) % W64)
  | 148 => do_lcmp c
  | 149 => do_fcmp E.F c (ofS64 (-1))
  | 150 => do_fcmp E.F c 1
  | 151 => do_dcmp E.F c (ofS64 (-1))
  | 152 => do_dcmp E.F c 1
  | _ + 153 => haltRes c

/-- One iteration of the dispatch loop: evolve the state, halt when the
pc has run off the program, otherwise decode the instruction at `pc`,
advance `pc` and branch to the handler. -/
def step (E : ExecEnv) (c : Cfg) : StepRes :=
  let st := stepState E.ctx.key c.state
  if E.code.length ≤ c.pc then haltRes { c with state := st }
  else
    let d := decodeInstr E.ctx st (E.code.getD c.pc ⟨0, 0, 0⟩)
    dispatch E { c with state := st, pc := c.pc + 1 } d.1 d.2

/-- Fuel-indexed iteration of `step`; `none` means the fuel ran out
before the interpreter halted. -/
def run (E : ExecEnv) : Nat → Cfg → Option (Nat × Cfg)
  | 0, _ => none
  | fuel + 1, c =>
    match step E c with
    | .done v c' => some (v, c')
    | .cont c' => run E fuel c'

/-- Initial configuration of `execute`: empty stack, `pc = 0`,
`state = KEY ^ seed`. -/
def initCfg (E : ExecEnv) (locals : List Nat) (h : Host) : Cfg :=
  ⟨[], locals, 0, state0 E.ctx.key E.seed, h⟩

/-- The `execute` entry point (fuel-indexed). -/
def execute (E : ExecEnv) (fuel : Nat) (locals : List Nat) (h : Host) :
    Option (Nat × Cfg) :=
  run E fuel (initCfg E locals h)

/-- Returned word of an `execute` call. -/
def execOut (E : ExecEnv) (fuel : Nat) (locals : List Nat) (h : Host) :
    Option Nat :=
  (execute E fuel locals h).map Prod.fst

/-- Pending host error after an `execute` call. -/
def execPending (E : ExecEnv) (fuel : Nat) (locals : List Nat) (h : Host) :
    Option (Option Exc) :=
  (execute E fuel locals h).map (fun p => p.2.host.pending)

/-! ### Concrete instances for witnesses -/

/-- A trivial float semantics (all-zero bit functions), enough to run
programs that never touch the float handlers. -/
def trivialFloat : FloatSem where
  fadd _ _ := 0
  fsub _ _ := 0
  fmul _ _ := 0
  fdiv _ _ := 0
  frem _ _ := 0
  fneg _ := 0
  dadd _ _ := 0
  dsub _ _ := 0
  dmul _ _ := 0
  ddiv _ _ := 0
  drem _ _ := 0
  dneg _ := 0
  isNan32 _ := false
  isNan64 _ := false
  fgt _ _ := false
  flt _ _ := false
  dgt _ _ := false
  dlt _ _ := false
  i2f _ := 0
  i2d _ := 0
  l2f _ := 0
  l2d _ := 0
  f2i _ := 0
  f2l _ := 0
  f2d _ := 0
  d2i _ := 0
  d2l _ := 0
  d2f _ := 0

/-- A trivial host oracle: every resolution fails, every handle is
null. -/
def trivialOracle : HostOracle where
  findClass _ := 0
  allocObj _ := 0
  isInstance _ _ := false
  newString _ := 0
  methodTypeOf _ := 0
  methodHandleOf _ := 0
  excRef _ := 1
  resolveStaticField _ := false
  resolveInstanceField _ := false
  staticFieldVal _ := 0
  instanceFieldVal _ _ := 0
  resolveMethod _ := false
  callRet _ _ _ _ := 0
  callExc _ _ _ _ := none

/-- Fresh host state with no pending error, no arrays, no output. -/
def emptyHost : Host := ⟨trivialOracle, none, [], [], [], []⟩

/-- A plain (nonce 0, not obfuscated) instruction. -/
def mkPlain (op operand : Nat) : Instruction := ⟨op, operand, 0⟩

/-- Environment for running a plain program with empty auxiliary
tables. -/
def plainEnv (code : List Instruction) : ExecEnv :=
  { ctx := idCtx, F := trivialFloat, code := code, seed := 0,
    pool := [], methodRefs := [], fieldRefs := [], multiRefs := [],
    tableRefs := [], lookupRefs := [] }

/-- Stack of the configuration carried by a step result. -/
def stepStack : StepRes → List Nat
  | .cont c => c.stack
  | .done _ c => c.stack

/-- Pending host error of the configuration carried by a step
result. -/
def stepPending : StepRes → Option Exc
  | .cont c => c.host.pending
  | .done _ c => c.host.pending

/-- Whether a step result continues dispatching (as opposed to
halting). -/
def stepIsCont : StepRes → Bool
  | .cont _ => true
  | .done _ _ => false

/-! ## Claim theorems over the interpreter -/

/-- C3 counterexample: executing `PUSH 5; PUSH 0; IREM; HALT` — an
integer remainder with divisor 0 — leaves no pending host error and
returns the ordinary numeric result 0, contradicting the claim that a
propagated arithmetic error is raised.  (Same for LREM, whose handler
is identical; the source comments both paths "Simplified handling".) -/
theorem irem_zero_divisor_silent :
    execPending (plainEnv [mkPlain 0 5, mkPlain 0 0, mkPlain 141 0, mkPlain 6 0])
      10 [] emptyHost = some none ∧
    execOut (plainEnv [mkPlain 0 5, mkPlain 0 0, mkPlain 141 0, mkPlain 6 0])
      10 [] emptyHost = some 0 := by
  decide

/-- C3 amended: with at least two operands and a zero divisor, `DIV`
and `LDIV` (both dispatching to `do_div`) raise a pending
`ArithmeticException` and halt with the stack untouched, whereas `IREM`
and `LREM` push the ordinary result 0 and continue without raising. -/
theorem div_rem_zero_divisor (E : ExecEnv) (c : Cfg) (a : Nat)
    (rest : List Nat) (hs : c.stack = 0 :: a :: rest) :
    do_div c = haltRes { c with host := c.host.throwExc .arith } ∧
    do_irem c = .cont { c with stack := 0 :: rest } ∧
    do_lrem c = .cont { c with stack := 0 :: rest } ∧
    dispatch E c 4 0 = do_div c ∧ dispatch E c 48 0 = do_div c ∧
    dispatch E c 141 0 = do_irem c ∧ dispatch E c 142 0 = do_lrem c := by
  refine ⟨?_, ?_, ?_, rfl, rfl, rfl, rfl⟩
  · simp [do_div, hs]
  · simp [do_irem, hs, toS64]
  · simp [do_lrem, hs, toS64]

/-- Witness for C3's amended theorem at a concrete configuration. -/
theorem div_rem_zero_divisor_witness :
    do_div ⟨[0, 5], [], 1, 0, emptyHost⟩ =
      haltRes ⟨[0, 5], [], 1, 0, emptyHost.throwExc .arith⟩ ∧
    do_irem ⟨[0, 5], [], 1, 0, emptyHost⟩ = .cont ⟨[0], [], 1, 0, emptyHost⟩ := by
  have h := div_rem_zero_divisor (plainEnv []) ⟨[0, 5], [], 1, 0, emptyHost⟩
    5 [] rfl
  exact ⟨h.1, h.2.1⟩

/-- C6: whenever `execute` halts — the pc having reached the program
length, an `OP_HALT` dispatch, or a decoded opcode hitting the dispatch
default — the returned word is the current top of stack, or 0 for an
empty stack; in particular a zero-length program returns 0. -/
theorem halt_returns_top_of_stack (E : ExecEnv) (c : Cfg) :
    (E.code.length ≤ c.pc →
      step E c = .done (topOrZero c.stack)
        { c with state := stepState E.ctx.key c.state }) ∧
    (∀ tmp, dispatch E c 6 tmp = .done (topOrZero c.stack) c) ∧
    (∀ op tmp, 153 ≤ op → dispatch E c op tmp = .done (topOrZero c.stack) c) ∧
    (∀ fuel locals h, E.code = [] → execOut E (fuel + 1) locals h = some 0) := by
  refine ⟨?_, fun _ => rfl, ?_, ?_⟩
  · intro hlen
    simp [step, hlen, haltRes]
  · intro op tmp hop
    obtain ⟨m, rfl⟩ : ∃ m, op = m + 153 := ⟨op - 153, by omega⟩
    rfl
  · intro fuel locals h hcode
    simp [execOut, execute, run, step, initCfg, hcode, haltRes, topOrZero]

/-- Witness for C6 at concrete configurations. -/
theorem halt_returns_top_of_stack_witness :
    step (plainEnv []) ⟨[9], [], 3, 0, emptyHost⟩ =
      .done 9 ⟨[9], [], 3, stepState 0 0, emptyHost⟩ ∧
    dispatch (plainEnv []) ⟨[9], [], 3, 0, emptyHost⟩ 200 0 =
      .done 9 ⟨[9], [], 3, 0, emptyHost⟩ ∧
    execOut (plainEnv []) 1 [] emptyHost = some 0 := by
  have h := halt_returns_top_of_stack (plainEnv []) ⟨[9], [], 3, 0, emptyHost⟩
  exact ⟨h.1 (by decide), h.2.2.1 200 0 (by omega), h.2.2.2 0 [] emptyHost rfl⟩

/-- C7: a LOAD-family instruction (`LOAD`, `LLOAD`, `FLOAD`, `DLOAD`,
`ALOAD`) whose index fails the locals bound pushes nothing and leaves
the whole configuration unchanged, and a STORE-family instruction
(`STORE`, `LSTORE`, `FSTORE`, `DSTORE`, `ASTORE`) with such an index
writes no local and does not pop; both continue with the next
instruction. -/
theorem locals_oob_soft_fail (E : ExecEnv) (c : Cfg) (op tmp : Nat)
    (hidx : ¬ (tmp < 2 ^ 63 ∧ tmp < c.locals.length)) :
    (op ∈ ([14, 34, 39, 40, 41] : List Nat) → dispatch E c op tmp = .cont c) ∧
    (op ∈ ([18, 35, 42, 43, 44] : List Nat) → dispatch E c op tmp = .cont c) := by
  obtain ⟨s, l, p, st, h⟩ := c
  have hload : do_load ⟨s, l, p, st, h⟩ tmp = .cont ⟨s, l, p, st, h⟩ := by
    unfold do_load
    exact if_neg (fun hc => hidx ⟨hc.2.1, hc.2.2⟩)
  have hstore : do_store ⟨s, l, p, st, h⟩ tmp = .cont ⟨s, l, p, st, h⟩ := by
    unfold do_store
    cases s with
    | nil => rfl
    | cons v rest => exact if_neg (fun hc => hidx hc)
  constructor
  · intro hop
    simp only [List.mem_cons, List.mem_singleton, List.not_mem_nil, or_false] at hop
    rcases hop with rfl | rfl | rfl | rfl | rfl <;> exact hload
  · intro hop
    simp only [List.mem_cons, List.mem_singleton, List.not_mem_nil, or_false] at hop
    rcases hop with rfl | rfl | rfl | rfl | rfl <;> exact hstore

/-- Witness for C7 at a concrete out-of-bounds index. -/
theorem locals_oob_soft_fail_witness :
    dispatch (plainEnv []) ⟨[8], [7], 1, 0, emptyHost⟩ 14 5 =
      .cont ⟨[8], [7], 1, 0, emptyHost⟩ ∧
    dispatch (plainEnv []) ⟨[8], [7], 1, 0, emptyHost⟩ 18 5 =
      .cont ⟨[8], [7], 1, 0, emptyHost⟩ := by
  have h := locals_oob_soft_fail (plainEnv []) ⟨[8], [7], 1, 0, emptyHost⟩ 14 5
    (by decide)
  have h' := locals_oob_soft_fail (plainEnv []) ⟨[8], [7], 1, 0, emptyHost⟩ 18 5
    (by decide)
  exact ⟨h.1 (by decide), h'.2 (by decide)⟩

/-- C8 counterexample: `do_putfield` with a single operand (guard
`sp >= 2` fails) clears the stack (`sp = 0`) instead of leaving it
untouched: the program `PUSH 42; PUTFIELD; HALT` returns 0, not 42. -/
theorem putfield_underflow_clears_stack :
    stepStack (do_putfield ⟨[42], [], 2, 0, emptyHost⟩ 0) = [] ∧
    stepIsCont (do_putfield ⟨[42], [], 2, 0, emptyHost⟩ 0) = true ∧
    execOut (plainEnv [mkPlain 0 42, mkPlain 108 0, mkPlain 6 0])
      10 [] emptyHost = some 0 := by
  decide

/-- C8 amended: guard-failing instructions are silently skipped and
execution continues, and for `PUSH` on a full stack and operand
underflow of the arithmetic and stack-shuffle handlers the
configuration is left exactly unchanged; but `PUTFIELD` with fewer than
two operands and a method invocation with fewer operands than its
argument count clear the operand stack (`sp = 0`) rather than leaving
it untouched. -/
theorem guard_failure_policy (E : ExecEnv) (c : Cfg) (tmp : Nat)
    (op : Nat) (ref : MethodRefM) (refIdx : Nat) :
    (¬ c.stack.length < 256 → do_push c tmp = .cont c) ∧
    (c.stack.length < 2 → do_add c = .cont c) ∧
    (c.stack.length < 2 → do_swap c = .cont c) ∧
    (c.stack.length = 0 → do_pop c = .cont c) ∧
    (¬ c.stack.length < 256 → do_dup c = .cont c) ∧
    (c.stack.length < 2 → do_putfield c tmp = .cont { c with stack := [] }) ∧
    (c.stack.length <
        ref.argTypes.length + (if op = 38 ∨ op = 112 then 0 else 1) →
      invoke_method op ref refIdx c = .cont { c with stack := [] }) := by
  obtain ⟨s, l, p, st, h⟩ := c
  refine ⟨?_, ?_, ?_, ?_, ?_, ?_, ?_⟩
  · intro hg
    unfold do_push
    exact if_neg hg
  · intro hg
    unfold do_add
    cases s with
    | nil => rfl
    | cons x t =>
      cases t with
      | nil => rfl
      | cons y t' => simp only [List.length_cons] at hg; omega
  · intro hg
    unfold do_swap
    cases s with
    | nil => rfl
    | cons x t =>
      cases t with
      | nil => rfl
      | cons y t' => simp only [List.length_cons] at hg; omega
  · intro hg
    unfold do_pop
    cases s with
    | nil => rfl
    | cons x t => simp only [List.length_cons] at hg; omega
  · intro hg
    unfold do_dup
    cases s with
    | nil => rfl
    | cons x t => exact if_neg hg
  · intro hg
    unfold do_putfield
    cases s with
    | nil => rfl
    | cons x t =>
      cases t with
      | nil => rfl
      | cons y t' => simp only [List.length_cons] at hg; omega
  · intro hg
    unfold invoke_method
    exact if_pos hg

/-- Witness for C8's amended theorem at concrete configurations. -/
theorem guard_failure_policy_witness :
    do_putfield ⟨[42], [], 2, 0, emptyHost⟩ 0 = .cont ⟨[], [], 2, 0, emptyHost⟩ ∧
    do_pop ⟨[], [], 0, 0, emptyHost⟩ = .cont ⟨[], [], 0, 0, emptyHost⟩ ∧
    invoke_method 38 ⟨[.int], .void⟩ 0 ⟨[], [], 0, 0, emptyHost⟩ =
      .cont ⟨[], [], 0, 0, emptyHost⟩ := by
  have h := guard_failure_policy (plainEnv []) ⟨[42], [], 2, 0, emptyHost⟩ 0
    38 ⟨[.int], .void⟩ 0
  have h2 := guard_failure_policy (plainEnv []) ⟨[], [], 0, 0, emptyHost⟩ 0
    38 ⟨[.int], .void⟩ 0
  exact ⟨h.2.2.2.2.2.1 (by decide), h2.2.2.2.1 rfl,
    h2.2.2.2.2.2.2 (by decide)⟩

/-- C4 counterexample: `PUSH 0; PUSH 0; PUSH 1; IASTORE; PUSH 7; HALT`
stores into a null array — the bridge call raises a pending
`NullPointerException` — yet the interpreter dispatches the following
`PUSH 7` and returns 7, instead of halting immediately with the
(empty-stack) result 0 as the claim requires. -/
theorem array_error_continues_execution :
    execOut (plainEnv [mkPlain 0 0, mkPlain 0 0, mkPlain 0 1, mkPlain 92 0,
      mkPlain 0 7, mkPlain 6 0]) 10 [] emptyHost = some 7 ∧
    execPending (plainEnv [mkPlain 0 0, mkPlain 0 0, mkPlain 0 1, mkPlain 92 0,
      mkPlain 0 7, mkPlain 6 0]) 10 [] emptyHost = some (some .npe) := by
  decide

/-- C4 amended: a host error raised during an array-store bridge call
(here the null-array case) records the pending error and *continues*
with the next instruction without pushing a result — the pending-error
channel is only consulted by explicit `EXCEPTION_CHECK` instructions —
whereas `GETFIELD` on a null receiver is an instruction-specific
immediate halt returning the current top of stack. -/
theorem bridge_error_policy (E : ExecEnv) (k : ArrKind) (c : Cfg)
    (vb ib tmp : Nat) (rest : List Nat) :
    (c.stack = vb :: ib :: 0 :: rest →
      do_arr_store k c =
        .cont { c with stack := rest, host := c.host.throwExc .npe }) ∧
    (c.stack = 0 :: rest → c.stack.length < 256 →
      do_getfield E c tmp =
        .done (topOrZero rest)
          { c with stack := rest, host := c.host.throwExc .npe }) := by
  obtain ⟨s, l, p, st, h⟩ := c
  constructor
  · intro hs
    simp only at hs
    subst hs
    simp [do_arr_store]
  · intro hs hlen
    simp only at hs
    subst hs
    simp only [List.length_cons] at hlen
    unfold do_getfield
    rw [if_pos ⟨by simp, by simpa using hlen⟩]
    simp [haltRes, topOrZero]

/-- Witness for C4's amended theorem at a concrete configuration. -/
theorem bridge_error_policy_witness :
    do_arr_store .int ⟨[1, 0, 0], [], 4, 0, emptyHost⟩ =
      .cont ⟨[], [], 4, 0, emptyHost.throwExc .npe⟩ ∧
    do_getfield (plainEnv []) ⟨[0, 9], [], 4, 0, emptyHost⟩ 0 =
      .done 9 ⟨[9], [], 4, 0, emptyHost.throwExc .npe⟩ := by
  have h1 := bridge_error_policy (plainEnv []) ArrKind.int
    ⟨[1, 0, 0], [], 4, 0, emptyHost⟩ 1 0 0 []
  have h2 := bridge_error_policy (plainEnv []) ArrKind.int
    ⟨[0, 9], [], 4, 0, emptyHost⟩ 1 0 0 [9]
  exact ⟨h1.1 rfl, h2.2 rfl (by decide)⟩

/-- Iterate `step`, returning the configuration reached after `n`
continuing steps (`none` if the interpreter halted earlier). -/
def iterate (E : ExecEnv) : Nat → Cfg → Option Cfg
  | 0, c => some c
  | n + 1, c =>
    match step E c with
    | .cont c' => iterate E n c'
    | .done _ _ => none

/-- Program of C10's counterexample: 256 pushes followed by a
`MULTIANEWARRAY` whose descriptor has `dims = 0`. -/
def envC10 : ExecEnv :=
  { plainEnv (List.replicate 256 (mkPlain 0 1) ++ [mkPlain 102 0]) with
    multiRefs := [⟨0, 0⟩] }

set_option maxRecDepth 100000 in
/-- C10 counterexample: from the initial configuration of `execute`,
257 dispatch steps reach a configuration whose operand-stack depth is
257 — the `MULTIANEWARRAY` handler pushes its result with no 256-slot
bound after popping `min(dims, sp)` operands, so with `dims = 0` and a
full stack the stack pointer leaves `[0, 256]`. -/
theorem sp_overflow_reachable :
    (iterate envC10 257 (initCfg envC10 [] emptyHost)).map
      (fun c => c.stack.length) = some 257 := by
  decide

/-! ### Stack-pointer bounds of the individual handlers (for C10) -/

theorem spLe_do_push (c : Cfg) (tmp : Nat) (h : c.stack.length ≤ 256) :
    (stepStack (do_push c tmp)).length ≤ 256 := by
  unfold do_push
  repeat' split
  all_goals simp_all [stepStack]
  all_goals omega

theorem spLe_do_const (c : Cfg) (v : Nat) (h : c.stack.length ≤ 256) :
    (stepStack (do_const c v)).length ≤ 256 := by
  unfold do_const
  repeat' split
  all_goals simp_all [stepStack]
  all_goals omega

theorem spLe_do_add (c : Cfg) (h : c.stack.length ≤ 256) :
    (stepStack (do_add c)).length ≤ 256 := by
  unfold do_add
  rcases hs : c.stack with _ | ⟨b, _ | ⟨a, rest⟩⟩ <;>
    simp_all [stepStack] <;> omega

theorem spLe_do_sub (c : Cfg) (h : c.stack.length ≤ 256) :
    (stepStack (do_sub c)).length ≤ 256 := by
  unfold do_sub
  rcases hs : c.stack with _ | ⟨b, _ | ⟨a, rest⟩⟩ <;>
    simp_all [stepStack] <;> omega

theorem spLe_do_mul (c : Cfg) (h : c.stack.length ≤ 256) :
    (stepStack (do_mul c)).length ≤ 256 := by
  unfold do_mul
  rcases hs : c.stack with _ | ⟨b, _ | ⟨a, rest⟩⟩ <;>
    simp_all [stepStack] <;> omega

theorem spLe_do_div (c : Cfg) (h : c.stack.length ≤ 256) :
    (stepStack (do_div c)).length ≤ 256 := by
  unfold do_div
  rcases hs : c.stack with _ | ⟨b, _ | ⟨a, rest⟩⟩ <;>
    simp only [hs] <;> repeat' split
  all_goals simp_all [stepStack, haltRes]
  all_goals omega

theorem spLe_do_print (c : Cfg) (h : c.stack.length ≤ 256) :
    (stepStack (do_print c)).length ≤ 256 := by
  unfold do_print
  rcases hs : c.stack with _ | ⟨v, rest⟩ <;>
    simp_all [stepStack] <;> omega

theorem spLe_do_swap (c : Cfg) (h : c.stack.length ≤ 256) :
    (stepStack (do_swap c)).length ≤ 256 := by
  unfold do_swap
  rcases hs : c.stack with _ | ⟨b, _ | ⟨a, rest⟩⟩ <;>
    simp_all [stepStack] <;> omega

theorem spLe_do_dup (c : Cfg) (h : c.stack.length ≤ 256) :
    (stepStack (do_dup c)).length ≤ 256 := by
  unfold do_dup
  rcases hs : c.stack with _ | ⟨a, rest⟩ <;>
    simp only [hs] <;> repeat' split
  all_goals simp_all [stepStack]
  all_goals omega

theorem spLe_do_pop (c : Cfg) (h : c.stack.length ≤ 256) :
    (stepStack (do_pop c)).length ≤ 256 := by
  unfold do_pop
  rcases hs : c.stack with _ | ⟨a, rest⟩ <;>
    simp_all [stepStack] <;> omega

theorem spLe_do_pop2 (c : Cfg) (h : c.stack.length ≤ 256) :
    (stepStack (do_pop2 c)).length ≤ 256 := by
  unfold do_pop2
  rcases hs : c.stack with _ | ⟨b, _ | ⟨a, rest⟩⟩ <;>
    simp_all [stepStack] <;> omega

theorem spLe_do_dup_x1 (c : Cfg) (h : c.stack.length ≤ 256) :
    (stepStack (do_dup_x1 c)).length ≤ 256 := by
  unfold do_dup_x1
  rcases hs : c.stack with _ | ⟨a, _ | ⟨b, rest⟩⟩ <;>
    simp only [hs] <;> repeat' split
  all_goals simp_all [stepStack]
  all_goals omega

theorem spLe_do_dup_x2 (c : Cfg) (h : c.stack.length ≤ 256) :
    (stepStack (do_dup_x2 c)).length ≤ 256 := by
  unfold do_dup_x2
  rcases hs : c.stack with _ | ⟨a, _ | ⟨b, _ | ⟨d, rest⟩⟩⟩ <;>
    simp only [hs] <;> repeat' split
  all_goals simp_all [stepStack]
  all_goals omega

theorem spLe_do_dup2 (c : Cfg) (h : c.stack.length ≤ 256) :
    (stepStack (do_dup2 c)).length ≤ 256 := by
  unfold do_dup2
  rcases hs : c.stack with _ | ⟨a, _ | ⟨b, rest⟩⟩ <;>
    simp only [hs] <;> repeat' split
  all_goals simp_all [stepStack]
  all_goals omega

theorem spLe_do_dup2_x1 (c : Cfg) (h : c.stack.length ≤ 256) :
    (stepStack (do_dup2_x1 c)).length ≤ 256 := by
  unfold do_dup2_x1
  rcases hs : c.stack with _ | ⟨a, _ | ⟨b, _ | ⟨d, rest⟩⟩⟩ <;>
    simp only [hs] <;> repeat' split
  all_goals simp_all [stepStack]
  all_goals omega

theorem spLe_do_dup2_x2 (c : Cfg) (h : c.stack.length ≤ 256) :
    (stepStack (do_dup2_x2 c)).length ≤ 256 := by
  unfold do_dup2_x2
  rcases hs : c.stack with _ | ⟨a, _ | ⟨b, _ | ⟨d, _ | ⟨e, rest⟩⟩⟩⟩ <;>
    simp only [hs] <;> repeat' split
  all_goals simp_all [stepStack]
  all_goals omega

theorem spLe_do_load (c : Cfg) (tmp : Nat) (h : c.stack.length ≤ 256) :
    (stepStack (do_load c tmp)).length ≤ 256 := by
  unfold do_load
  repeat' split
  all_goals simp_all [stepStack]
  all_goals omega

theorem spLe_do_store (c : Cfg) (tmp : Nat) (h : c.stack.length ≤ 256) :
    (stepStack (do_store c tmp)).length ≤ 256 := by
  unfold do_store
  rcases hs : c.stack with _ | ⟨v, rest⟩ <;>
    simp only [hs] <;> repeat' split
  all_goals simp_all [stepStack]
  all_goals omega

theorem spLe_do_iinc (c : Cfg) (tmp : Nat) (h : c.stack.length ≤ 256) :
    (stepStack (do_iinc c tmp)).length ≤ 256 := by
  unfold do_iinc
  dsimp only
  split_ifs <;> simp_all [stepStack]

theorem spLe_do_if_icmpeq (c : Cfg) (tmp : Nat) (h : c.stack.length ≤ 256) :
    (stepStack (do_if_icmpeq c tmp)).length ≤ 256 := by
  unfold do_if_icmpeq
  rcases hs : c.stack with _ | ⟨b, _ | ⟨a, rest⟩⟩ <;>
    simp_all [stepStack] <;> omega

theorem spLe_do_if_icmpne (c : Cfg) (tmp : Nat) (h : c.stack.length ≤ 256) :
    (stepStack (do_if_icmpne c tmp)).length ≤ 256 := by
  unfold do_if_icmpne
  rcases hs : c.stack with _ | ⟨b, _ | ⟨a, rest⟩⟩ <;>
    simp_all [stepStack] <;> omega

theorem spLe_do_if_icmplt (c : Cfg) (tmp : Nat) (h : c.stack.length ≤ 256) :
    (stepStack (do_if_icmplt c tmp)).length ≤ 256 := by
  unfold do_if_icmplt
  rcases hs : c.stack with _ | ⟨b, _ | ⟨a, rest⟩⟩ <;>
    simp_all [stepStack] <;> omega

theorem spLe_do_if_icmple (c : Cfg) (tmp : Nat) (h : c.stack.length ≤ 256) :
    (stepStack (do_if_icmple c tmp)).length ≤ 256 := by
  unfold do_if_icmple
  rcases hs : c.stack with _ | ⟨b, _ | ⟨a, rest⟩⟩ <;>
    simp_all [stepStack] <;> omega

theorem spLe_do_if_icmpgt (c : Cfg) (tmp : Nat) (h : c.stack.length ≤ 256) :
    (stepStack (do_if_icmpgt c tmp)).length ≤ 256 := by
  unfold do_if_icmpgt
  rcases hs : c.stack with _ | ⟨b, _ | ⟨a, rest⟩⟩ <;>
    simp_all [stepStack] <;> omega

theorem spLe_do_if_icmpge (c : Cfg) (tmp : Nat) (h : c.stack.length ≤ 256) :
    (stepStack (do_if_icmpge c tmp)).length ≤ 256 := by
  unfold do_if_icmpge
  rcases hs : c.stack with _ | ⟨b, _ | ⟨a, rest⟩⟩ <;>
    simp_all [stepStack] <;> omega

theorem spLe_do_ifnull (c : Cfg) (tmp : Nat) (h : c.stack.length ≤ 256) :
    (stepStack (do_ifnull c tmp)).length ≤ 256 := by
  unfold do_ifnull
  rcases hs : c.stack with _ | ⟨a, rest⟩ <;>
    simp_all [stepStack] <;> omega

theorem spLe_do_ifnonnull (c : Cfg) (tmp : Nat) (h : c.stack.length ≤ 256) :
    (stepStack (do_ifnonnull c tmp)).length ≤ 256 := by
  unfold do_ifnonnull
  rcases hs : c.stack with _ | ⟨a, rest⟩ <;>
    simp_all [stepStack] <;> omega

theorem spLe_do_goto (c : Cfg) (tmp : Nat) (h : c.stack.length ≤ 256) :
    (stepStack (do_goto c tmp)).length ≤ 256 := h

theorem spLe_do_and (c : Cfg) (h : c.stack.length ≤ 256) :
    (stepStack (do_and c)).length ≤ 256 := by
  unfold do_and
  rcases hs : c.stack with _ | ⟨b, _ | ⟨a, rest⟩⟩ <;>
    simp_all [stepStack] <;> omega

theorem spLe_do_or (c : Cfg) (h : c.stack.length ≤ 256) :
    (stepStack (do_or c)).length ≤ 256 := by
  unfold do_or
  rcases hs : c.stack with _ | ⟨b, _ | ⟨a, rest⟩⟩ <;>
    simp_all [stepStack] <;> omega

theorem spLe_do_xor (c : Cfg) (h : c.stack.length ≤ 256) :
    (stepStack (do_xor c)).length ≤ 256 := by
  unfold do_xor
  rcases hs : c.stack with _ | ⟨b, _ | ⟨a, rest⟩⟩ <;>
    simp_all [stepStack] <;> omega

theorem spLe_do_shl (c : Cfg) (h : c.stack.length ≤ 256) :
    (stepStack (do_shl c)).length ≤ 256 := by
  unfold do_shl
  rcases hs : c.stack with _ | ⟨b, _ | ⟨a, rest⟩⟩ <;>
    simp_all [stepStack] <;> omega

theorem spLe_do_shr (c : Cfg) (h : c.stack.length ≤ 256) :
    (stepStack (do_shr c)).length ≤ 256 := by
  unfold do_shr
  rcases hs : c.stack with _ | ⟨b, _ | ⟨a, rest⟩⟩ <;>
    simp_all [stepStack] <;> omega

theorem spLe_do_ushr (c : Cfg) (h : c.stack.length ≤ 256) :
    (stepStack (do_ushr c)).length ≤ 256 := by
  unfold do_ushr
  rcases hs : c.stack with _ | ⟨b, _ | ⟨a, rest⟩⟩ <;>
    simp_all [stepStack] <;> omega

theorem spLe_do_conv (c : Cfg) (f : Nat → Nat) (h : c.stack.length ≤ 256) :
    (stepStack (do_conv c f)).length ≤ 256 := by
  unfold do_conv
  rcases hs : c.stack with _ | ⟨a, rest⟩ <;>
    simp_all [stepStack] <;> omega

theorem spLe_do_irem (c : Cfg) (h : c.stack.length ≤ 256) :
    (stepStack (do_irem c)).length ≤ 256 := by
  unfold do_irem
  rcases hs : c.stack with _ | ⟨b, _ | ⟨a, rest⟩⟩ <;>
    simp only [hs] <;> repeat' split
  all_goals simp_all [stepStack]
  all_goals omega

theorem spLe_do_lrem (c : Cfg) (h : c.stack.length ≤ 256) :
    (stepStack (do_lrem c)).length ≤ 256 := by
  unfold do_lrem
  rcases hs : c.stack with _ | ⟨b, _ | ⟨a, rest⟩⟩ <;>
    simp only [hs] <;> repeat' split
  all_goals simp_all [stepStack]
  all_goals omega

theorem spLe_do_frem (F : FloatSem) (c : Cfg) (h : c.stack.length ≤ 256) :
    (stepStack (do_frem F c)).length ≤ 256 := by
  unfold do_frem
  rcases hs : c.stack with _ | ⟨b, _ | ⟨a, rest⟩⟩ <;>
    simp_all [stepStack] <;> omega

theorem spLe_do_drem (F : FloatSem) (c : Cfg) (h : c.stack.length ≤ 256) :
    (stepStack (do_drem F c)).length ≤ 256 := by
  unfold do_drem
  rcases hs : c.stack with _ | ⟨b, _ | ⟨a, rest⟩⟩ <;>
    simp_all [stepStack] <;> omega

theorem spLe_do_fbin (c : Cfg) (f : Nat → Nat → Nat) (h : c.stack.length ≤ 256) :
    (stepStack (do_fbin c f)).length ≤ 256 := by
  unfold do_fbin
  rcases hs : c.stack with _ | ⟨b, _ | ⟨a, rest⟩⟩ <;>
    simp_all [stepStack] <;> omega

theorem spLe_do_dbin (c : Cfg) (f : Nat → Nat → Nat) (h : c.stack.length ≤ 256) :
    (stepStack (do_dbin c f)).length ≤ 256 := by
  unfold do_dbin
  rcases hs : c.stack with _ | ⟨b, _ | ⟨a, rest⟩⟩ <;>
    simp_all [stepStack] <;> omega

theorem spLe_do_lcmp (c : Cfg) (h : c.stack.length ≤ 256) :
    (stepStack (do_lcmp c)).length ≤ 256 := by
  unfold do_lcmp
  rcases hs : c.stack with _ | ⟨b, _ | ⟨a, rest⟩⟩ <;>
    simp only [hs] <;> repeat' split
  all_goals simp_all [stepStack]
  all_goals omega

theorem spLe_do_fcmp (F : FloatSem) (c : Cfg) (nanRes : Nat)
    (h : c.stack.length ≤ 256) :
    (stepStack (do_fcmp F c nanRes)).length ≤ 256 := by
  unfold do_fcmp
  rcases hs : c.stack with _ | ⟨b, _ | ⟨a, rest⟩⟩ <;>
    simp only [hs] <;> repeat' split
  all_goals simp_all [stepStack]
  all_goals omega

theorem spLe_do_dcmp (F : FloatSem) (c : Cfg) (nanRes : Nat)
    (h : c.stack.length ≤ 256) :
    (stepStack (do_dcmp F c nanRes)).length ≤ 256 := by
  unfold do_dcmp
  rcases hs : c.stack with _ | ⟨b, _ | ⟨a, rest⟩⟩ <;>
    simp only [hs] <;> repeat' split
  all_goals simp_all [stepStack]
  all_goals omega

theorem spLe_do_arr_load (k : ArrKind) (c : Cfg) (h : c.stack.length ≤ 256) :
    (stepStack (do_arr_load k c)).length ≤ 256 := by
  unfold do_arr_load
  rcases hs : c.stack with _ | ⟨ib, _ | ⟨ab, rest⟩⟩ <;>
    simp only [hs] <;> repeat' split
  all_goals simp_all [stepStack, haltRes]
  all_goals omega

theorem spLe_do_arr_store (k : ArrKind) (c : Cfg) (h : c.stack.length ≤ 256) :
    (stepStack (do_arr_store k c)).length ≤ 256 := by
  unfold do_arr_store
  rcases hs : c.stack with _ | ⟨vb, _ | ⟨ib, _ | ⟨ab, rest⟩⟩⟩ <;>
    simp only [hs] <;> repeat' split
  all_goals simp_all [stepStack, haltRes]
  all_goals omega

theorem spLe_do_aaload (c : Cfg) (h : c.stack.length ≤ 256) :
    (stepStack (do_aaload c)).length ≤ 256 := by
  unfold do_aaload
  rcases hs : c.stack with _ | ⟨ib, _ | ⟨ab, rest⟩⟩ <;>
    simp only [hs] <;> repeat' split
  all_goals simp_all [stepStack, haltRes]
  all_goals omega

theorem spLe_do_aastore (c : Cfg) (h : c.stack.length ≤ 256) :
    (stepStack (do_aastore c)).length ≤ 256 := by
  unfold do_aastore
  rcases hs : c.stack with _ | ⟨vb, _ | ⟨ib, _ | ⟨ab, rest⟩⟩⟩ <;>
    simp only [hs] <;> repeat' split
  all_goals simp_all [stepStack, haltRes]
  all_goals omega

theorem spLe_do_new (c : Cfg) (tmp : Nat) (h : c.stack.length ≤ 256) :
    (stepStack (do_new c tmp)).length ≤ 256 := by
  unfold do_new
  dsimp only
  split_ifs <;> simp_all [stepStack] <;> omega

theorem spLe_do_anewarray (c : Cfg) (tmp : Nat) (h : c.stack.length ≤ 256) :
    (stepStack (do_anewarray c tmp)).length ≤ 256 := by
  unfold do_anewarray
  rcases hs : c.stack with _ | ⟨lb, rest⟩ <;>
    simp only [hs] <;> repeat' split
  all_goals simp_all [stepStack]
  all_goals omega

theorem spLe_do_newarray (c : Cfg) (tmp : Nat) (h : c.stack.length ≤ 256) :
    (stepStack (do_newarray c tmp)).length ≤ 256 := by
  unfold do_newarray
  rcases hs : c.stack with _ | ⟨lb, rest⟩ <;>
    simp only [hs] <;> repeat' split
  all_goals simp_all [stepStack]
  all_goals omega

theorem spLe_do_checkcast (c : Cfg) (tmp : Nat) (h : c.stack.length ≤ 256) :
    (stepStack (do_checkcast c tmp)).length ≤ 256 := by
  unfold do_checkcast
  rcases hs : c.stack with _ | ⟨ob, rest⟩ <;>
    simp only [hs] <;> repeat' split
  all_goals simp_all [stepStack]
  all_goals omega

theorem spLe_do_instanceof (c : Cfg) (tmp : Nat) (h : c.stack.length ≤ 256) :
    (stepStack (do_instanceof c tmp)).length ≤ 256 := by
  unfold do_instanceof
  rcases hs : c.stack with _ | ⟨ob, rest⟩ <;>
    simp only [hs] <;> repeat' split
  all_goals simp_all [stepStack]
  all_goals omega

theorem spLe_do_getstatic (E : ExecEnv) (c : Cfg) (tmp : Nat)
    (h : c.stack.length ≤ 256) :
    (stepStack (do_getstatic E c tmp)).length ≤ 256 := by
  unfold do_getstatic
  repeat' split
  all_goals simp_all [stepStack]
  all_goals omega

theorem spLe_do_putstatic (c : Cfg) (tmp : Nat) (h : c.stack.length ≤ 256) :
    (stepStack (do_putstatic c tmp)).length ≤ 256 := by
  unfold do_putstatic
  rcases hs : c.stack with _ | ⟨v, rest⟩ <;>
    simp only [hs] <;> repeat' split
  all_goals simp_all [stepStack]
  all_goals omega

theorem spLe_do_getfield (E : ExecEnv) (c : Cfg) (tmp : Nat)
    (h : c.stack.length ≤ 256) :
    (stepStack (do_getfield E c tmp)).length ≤ 256 := by
  unfold do_getfield
  repeat' split
  all_goals simp_all [stepStack, haltRes]
  all_goals omega

theorem spLe_do_putfield (c : Cfg) (tmp : Nat) (h : c.stack.length ≤ 256) :
    (stepStack (do_putfield c tmp)).length ≤ 256 := by
  unfold do_putfield
  rcases hs : c.stack with _ | ⟨v, _ | ⟨ob, rest⟩⟩ <;>
    simp only [hs] <;> repeat' split
  all_goals simp_all [stepStack, haltRes]
  all_goals omega

theorem spLe_do_ldc (E : ExecEnv) (c : Cfg) (tmp : Nat)
    (h : c.stack.length ≤ 256) :
    (stepStack (do_ldc E c tmp)).length ≤ 256 := by
  unfold do_ldc
  repeat' split
  all_goals simp_all [stepStack, haltRes]
  all_goals omega

theorem spLe_do_ldc2_w (E : ExecEnv) (c : Cfg) (tmp : Nat)
    (h : c.stack.length ≤ 256) :
    (stepStack (do_ldc2_w E c tmp)).length ≤ 256 := by
  unfold do_ldc2_w
  repeat' split
  all_goals simp_all [stepStack, haltRes]
  all_goals omega

theorem spLe_do_athrow (c : Cfg) (h : c.stack.length ≤ 256) :
    (stepStack (do_athrow c)).length ≤ 256 := by
  unfold do_athrow
  rcases hs : c.stack with _ | ⟨e, rest⟩ <;>
    simp only [hs] <;> repeat' split
  all_goals simp_all [stepStack, haltRes]
  all_goals omega

theorem spLe_do_catch_handler (c : Cfg) (tmp : Nat) (h : c.stack.length ≤ 256) :
    (stepStack (do_catch_handler c tmp)).length ≤ 256 := by
  unfold do_catch_handler
  repeat' split
  all_goals simp_all [stepStack]

theorem spLe_do_exception_check (c : Cfg) (tmp : Nat)
    (h : c.stack.length ≤ 256) :
    (stepStack (do_exception_check c tmp)).length ≤ 256 := by
  unfold do_exception_check
  cases hp : c.host.pending with
  | none => simp_all [stepStack]
  | some e =>
    simp only [hp]
    split_ifs <;> simp_all [stepStack] <;> omega

theorem spLe_do_exception_clear (c : Cfg) (h : c.stack.length ≤ 256) :
    (stepStack (do_exception_clear c)).length ≤ 256 := h

theorem spLe_do_tableswitch (E : ExecEnv) (c : Cfg) (tmp : Nat)
    (h : c.stack.length ≤ 256) :
    (stepStack (do_tableswitch E c tmp)).length ≤ 256 := by
  unfold do_tableswitch
  rcases hs : c.stack with _ | ⟨vb, rest⟩ <;>
    simp_all [stepStack] <;> omega

theorem spLe_do_lookupswitch (E : ExecEnv) (c : Cfg) (tmp : Nat)
    (h : c.stack.length ≤ 256) :
    (stepStack (do_lookupswitch E c tmp)).length ≤ 256 := by
  unfold do_lookupswitch
  rcases hs : c.stack with _ | ⟨vb, rest⟩ <;>
    simp_all [stepStack] <;> omega

/-- C10 amended: a dispatch step of any handler other than
`MULTIANEWARRAY` and the five method-invocation instructions keeps the
operand-stack depth within `[0, 256]` (the lower bound holds by
construction); the excluded handlers push their result without a
256-slot bound after their pops and can drive `sp` to 257, as the
counterexample shows. -/
theorem sp_bound_preserved (E : ExecEnv) (c : Cfg) (op tmp : Nat)
    (hsp : c.stack.length ≤ 256)
    (hop : op ∉ ([38, 102, 109, 110, 111, 112] : List Nat)) :
    (stepStack (dispatch E c op tmp)).length ≤ 256 :=
  match op, hop with
  | 0, _ => spLe_do_push c tmp hsp
  | 1, _ => spLe_do_add c hsp
  | 2, _ => spLe_do_sub c hsp
  | 3, _ => spLe_do_mul c hsp
  | 4, _ => spLe_do_div c hsp
  | 5, _ => spLe_do_print c hsp
  | 6, _ => hsp
  | 7, _ => hsp
  | 8, _ => hsp
  | 9, _ => hsp
  | 10, _ => spLe_do_swap c hsp
  | 11, _ => spLe_do_dup c hsp
  | 12, _ => spLe_do_pop c hsp
  | 13, _ => spLe_do_pop2 c hsp
  | 14, _ => spLe_do_load c tmp hsp
  | 15, _ => spLe_do_if_icmpeq c tmp hsp
  | 16, _ => spLe_do_if_icmpne c tmp hsp
  | 17, _ => spLe_do_goto c tmp hsp
  | 18, _ => spLe_do_store c tmp hsp
  | 19, _ => spLe_do_and c hsp
  | 20, _ => spLe_do_or c hsp
  | 21, _ => spLe_do_xor c hsp
  | 22, _ => spLe_do_shl c hsp
  | 23, _ => spLe_do_shr c hsp
  | 24, _ => spLe_do_ushr c hsp
  | 25, _ => spLe_do_if_icmplt c tmp hsp
  | 26, _ => spLe_do_if_icmple c tmp hsp
  | 27, _ => spLe_do_if_icmpgt c tmp hsp
  | 28, _ => spLe_do_if_icmpge c tmp hsp
  | 29, _ => spLe_do_conv c sext32 hsp
  | 30, _ => spLe_do_conv c sext8 hsp
  | 31, _ => spLe_do_conv c (fun v => v % 2 ^ 16) hsp
  | 32, _ => spLe_do_conv c sext16 hsp
  | 33, _ => spLe_do_conv c neg64 hsp
  | 34, _ => spLe_do_load c tmp hsp
  | 35, _ => spLe_do_store c tmp hsp
  | 36, _ => spLe_do_aaload c hsp
  | 37, _ => spLe_do_aastore c hsp
  | 38, hop => absurd (by decide) hop
  | 39, _ => spLe_do_load c tmp hsp
  | 40, _ => spLe_do_load c tmp hsp
  | 41, _ => spLe_do_load c tmp hsp
  | 42, _ => spLe_do_store c tmp hsp
  | 43, _ => spLe_do_store c tmp hsp
  | 44, _ => spLe_do_store c tmp hsp
  | 45, _ => spLe_do_add c hsp
  | 46, _ => spLe_do_sub c hsp
  | 47, _ => spLe_do_mul c hsp
  | 48, _ => spLe_do_div c hsp
  | 49, _ => spLe_do_fbin c E.F.fadd hsp
  | 50, _ => spLe_do_fbin c E.F.fsub hsp
  | 51, _ => spLe_do_fbin c E.F.fmul hsp
  | 52, _ => spLe_do_fbin c E.F.fdiv hsp
  | 53, _ => spLe_do_dbin c E.F.dadd hsp
  | 54, _ => spLe_do_dbin c E.F.dsub hsp
  | 55, _ => spLe_do_dbin c E.F.dmul hsp
  | 56, _ => spLe_do_dbin c E.F.ddiv hsp
  | 57, _ => spLe_do_ldc E c tmp hsp
  | 58, _ => spLe_do_ldc E c tmp hsp
  | 59, _ => spLe_do_ldc2_w E c tmp hsp
  | 60, _ => spLe_do_const c 0 hsp
  | 61, _ => spLe_do_const c 0x3F800000 hsp
  | 62, _ => spLe_do_const c 0x40000000 hsp
  | 63, _ => spLe_do_const c 0 hsp
  | 64, _ => spLe_do_const c 0x3FF0000000000000 hsp
  | 65, _ => spLe_do_const c 0 hsp
  | 66, _ => spLe_do_const c 1 hsp
  | 67, _ => spLe_do_iinc c tmp hsp
  | 68, _ => spLe_do_and c hsp
  | 69, _ => spLe_do_or c hsp
  | 70, _ => spLe_do_xor c hsp
  | 71, _ => spLe_do_shl c hsp
  | 72, _ => spLe_do_shr c hsp
  | 73, _ => spLe_do_ushr c hsp
  | 74, _ => spLe_do_conv c (fun v => sext32 (E.F.i2f (v % 2 ^ 32))) hsp
  | 75, _ => spLe_do_conv c (fun v => E.F.i2d (v % 2 ^ 32) % W64) hsp
  | 76, _ => spLe_do_conv c sext32 hsp
  | 77, _ => spLe_do_conv c (fun v => sext32 (E.F.l2f (v % W64))) hsp
  | 78, _ => spLe_do_conv c (fun v => E.F.l2d (v % W64) % W64) hsp
  | 79, _ => spLe_do_conv c (fun v => sext32 (E.F.f2i (v % 2 ^ 32))) hsp
  | 80, _ => spLe_do_conv c (fun v => E.F.f2l (v % 2 ^ 32) % W64) hsp
  | 81, _ => spLe_do_conv c (fun v => E.F.f2d (v % 2 ^ 32) % W64) hsp
  | 82, _ => spLe_do_conv c (fun v => sext32 (E.F.d2i (v % W64))) hsp
  | 83, _ => spLe_do_conv c (fun v => E.F.d2l (v % W64) % W64) hsp
  | 84, _ => spLe_do_conv c (fun v => sext32 (E.F.d2f (v % W64))) hsp
  | 85, _ => spLe_do_arr_load .int c hsp
  | 86, _ => spLe_do_arr_load .long c hsp
  | 87, _ => spLe_do_arr_load .float c hsp
  | 88, _ => spLe_do_arr_load .double c hsp
  | 89, _ => spLe_do_arr_load .byte c hsp
  | 90, _ => spLe_do_arr_load .char c hsp
  | 91, _ => spLe_do_arr_load .short c hsp
  | 92, _ => spLe_do_arr_store .int c hsp
  | 93, _ => spLe_do_arr_store .long c hsp
  | 94, _ => spLe_do_arr_store .float c hsp
  | 95, _ => spLe_do_arr_store .double c hsp
  | 96, _ => spLe_do_arr_store .byte c hsp
  | 97, _ => spLe_do_arr_store .char c hsp
  | 98, _ => spLe_do_arr_store .short c hsp
  | 99, _ => spLe_do_new c tmp hsp
  | 100, _ => spLe_do_anewarray c tmp hsp
  | 101, _ => spLe_do_newarray c tmp hsp
  | 102, hop => absurd (by decide) hop
  | 103, _ => spLe_do_checkcast c tmp hsp
  | 104, _ => spLe_do_instanceof c tmp hsp
  | 105, _ => spLe_do_getstatic E c tmp hsp
  | 106, _ => spLe_do_putstatic c tmp hsp
  | 107, _ => spLe_do_getfield E c tmp hsp
  | 108, _ => spLe_do_putfield c tmp hsp
  | 109, hop => absurd (by decide) hop
  | 110, hop => absurd (by decide) hop
  | 111, hop => absurd (by decide) hop
  | 112, hop => absurd (by decide) hop
  | 113, _ => spLe_do_ifnull c tmp hsp
  | 114, _ => spLe_do_ifnonnull c tmp hsp
  | 115, _ => spLe_do_if_icmpeq c tmp hsp
  | 116, _ => spLe_do_if_icmpne c tmp hsp
  | 117, _ => spLe_do_tableswitch E c tmp hsp
  | 118, _ => spLe_do_lookupswitch E c tmp hsp
  | 119, _ => spLe_do_goto c tmp hsp
  | 120, _ => spLe_do_ifnull c tmp hsp
  | 121, _ => spLe_do_ifnonnull c tmp hsp
  | 122, _ => spLe_do_if_icmpeq c tmp hsp
  | 123, _ => spLe_do_if_icmpne c tmp hsp
  | 124, _ => spLe_do_if_icmpeq c tmp hsp
  | 125, _ => spLe_do_if_icmpne c tmp hsp
  | 126, _ => spLe_do_if_icmplt c tmp hsp
  | 127, _ => spLe_do_if_icmple c tmp hsp
  | 128, _ => spLe_do_if_icmpgt c tmp hsp
  | 129, _ => spLe_do_if_icmpge c tmp hsp
  | 130, _ => spLe_do_dup_x1 c hsp
  | 131, _ => spLe_do_dup_x2 c hsp
  | 132, _ => spLe_do_dup2 c hsp
  | 133, _ => spLe_do_dup2_x1 c hsp
  | 134, _ => spLe_do_dup2_x2 c hsp
  | 135, _ => spLe_do_athrow c hsp
  | 136, _ => hsp
  | 137, _ => spLe_do_catch_handler c tmp hsp
  | 138, _ => spLe_do_catch_handler c tmp hsp
  | 139, _ => spLe_do_exception_check c tmp hsp
  | 140, _ => spLe_do_exception_clear c hsp
  | 141, _ => spLe_do_irem c hsp
  | 142, _ => spLe_do_lrem c hsp
  | 143, _ => spLe_do_frem E.F c hsp
  | 144, _ => spLe_do_drem E.F c hsp
  | 145, _ => spLe_do_conv c neg64 hsp
  | 146, _ => spLe_do_conv c (fun v => sext32 (E.F.fneg (v % 2 ^ 32))) hsp
  | 147, _ => spLe_do_conv c (fun v => E.F.dneg (v % W64) % W64) hsp
  | 148, _ => spLe_do_lcmp c hsp
  | 149, _ => spLe_do_fcmp E.F c (ofS64 (-1)) hsp
  | 150, _ => spLe_do_fcmp E.F c 1 hsp
  | 151, _ => spLe_do_dcmp E.F c (ofS64 (-1)) hsp
  | 152, _ => spLe_do_dcmp E.F c 1 hsp
  | _ + 153, _ => hsp

/-! ## Hot-path compiler cache (vm_jit.cpp and `execute_jit`)

The decoded-program replay `run_program` works on the same
stack/locals/host model; it has no decode state, so it reuses `Cfg`
with the `state` field left untouched. -/

/-- Predicate `is_supported_for_jit` from vm_jit.cpp: the allow-list of
opcodes the fast-replay interpreter understands. -/
def is_supported_for_jit : Nat → Bool
  | 0 | 57 | 58 | 59 => true
  | 1 | 2 | 3 | 4 | 5 => true
  | 7 | 8 | 9 => true
  | 10 | 11 => true
  | 130 | 131 | 132 | 133 | 134 => true
  | 135 | 136 | 137 | 138 | 139 | 140 => true
  | 14 | 39 | 40 | 41 => true
  | 18 | 42 | 43 | 44 => true
  | 15 | 16 | 17 => true
  | 19 | 20 | 21 | 22 | 23 | 24 => true
  | 25 | 26 | 27 | 28 => true
  | 29 | 30 | 31 | 32 => true
  | 74 | 75 | 76 | 77 | 78 | 79 | 80 | 81 | 82 | 83 | 84 => true
  | 33 => true
  | 34 | 35 | 36 | 37 => true
  | 85 | 89 | 90 | 91 => true
  | 92 | 96 | 97 | 98 => true
  | 38 => true
  | 60 | 61 | 62 | 63 | 64 | 65 | 66 => true
  | 6 => true
  | _ => false

/-- The switch of `run_program` over one decoded instruction (the
decoded program is a list of `{op, operand}` pairs; `prog` is needed
for the handler-target bounds of the exception-marker cases).  The JNI
array accesses go through `Get/Set<Type>ArrayRegion` directly (no
cache); a null or dangling array handle is undefined behaviour there
and is modelled as pending-NPE/no-write with the uninitialised read
modelled as 0.  A value not matched by any case falls through the
switch as a no-op. -/
def jitDispatch (F : FloatSem) (prog : List (Nat × Nat)) (c : Cfg)
    (op tmp : Nat) : StepRes :=
  match op with
    | 0 | 57 | 58 | 59 =>
      if c.stack.length + 1 ≤ 256 then .cont { c with stack := tmp :: c.stack }
      else .cont c
    | 1 =>
      match c.stack with
      | b :: a :: rest => .cont { c with stack := add64 a b :: rest }
      | _ => .cont c
    | 2 =>
      match c.stack with
      | b :: a :: rest => .cont { c with stack := sub64 a b :: rest }
      | _ => .cont c
    | 3 =>
      match c.stack with
      | b :: a :: rest => .cont { c with stack := mul64 a b :: rest }
      | _ => .cont c
    | 4 =>
      match c.stack with
      | b :: a :: rest =>
        if b = 0 then .done 0 { c with host := c.host.throwExc .arith }
        else .cont { c with stack := divT64 a b :: rest }
      | _ => .cont c
    | 5 =>
      match c.stack with
      | v :: rest =>
        .cont { c with stack := rest,
                       host := { c.host with out := c.host.out ++ [v] } }
      | _ => .cont c
    | 7 | 8 | 9 => .cont c
    | 10 =>
      match c.stack with
      | b :: a :: rest => .cont { c with stack := a :: b :: rest }
      | _ => .cont c
    | 11 =>
      match c.stack with
      | a :: rest =>
        if c.stack.length + 1 ≤ 256 then .cont { c with stack := a :: a :: rest }
        else .cont c
      | _ => .cont c
    | 130 =>
      match c.stack with
      | v1 :: v2 :: rest =>
        if c.stack.length + 1 ≤ 256 then
          .cont { c with stack := v1 :: v2 :: v1 :: rest }
        else .cont c
      | _ => .cont c
    | 131 =>
      match c.stack with
      | v1 :: v2 :: v3 :: rest =>
        if c.stack.length + 1 ≤ 256 then
          .cont { c with stack := v1 :: v2 :: v3 :: v1 :: rest }
        else .cont c
      | _ => .cont c
    | 132 =>
      match c.stack with
      | v1 :: v2 :: rest =>
        if c.stack.length + 2 ≤ 256 then
          .cont { c with stack := v1 :: v2 :: v1 :: v2 :: rest }
        else .cont c
      | _ => .cont c
    | 133 =>
      match c.stack with
      | v1 :: v2 :: v3 :: rest =>
        if c.stack.length + 2 ≤ 256 then
          .cont { c with stack := v1 :: v2 :: v3 :: v1 :: v2 :: rest }
        else .cont c
      | _ => .cont c
    | 134 =>
      match c.stack with
      | v1 :: v2 :: v3 :: v4 :: rest =>
        if c.stack.length + 2 ≤ 256 then
          .cont { c with stack := v1 :: v2 :: v3 :: v4 :: v1 :: v2 :: rest }
        else .cont c
      | _ => .cont c
    | 135 =>
      match c.stack with
      | e :: rest =>
        let h := if e = 0 then c.host.throwExc .npe else c.host.throwExc (.thrown e)
        .done 0 { c with stack := rest, host := h }
      | _ => .cont c
    | 136 => .cont c
    | 137 | 138 =>
      if tmp < prog.length then .cont { c with pc := tmp } else .cont c
    | 139 =>
      match c.host.pending with
      | some e =>
        let h := c.host.oracle.excRef e
        if h ≠ 0 ∧ c.stack.length < 256 then
          let c1 := { c with stack := h :: c.stack,
                             host := { c.host with pending := none } }
          if tmp < prog.length then .cont { c1 with pc := tmp } else .cont c1
        else .cont c
      | none => .cont c
    | 140 => .cont { c with host := { c.host with pending := none } }
    | 14 | 39 | 40 | 41 =>
      if c.stack.length < 256 ∧ tmp < 2 ^ 63 ∧ tmp < c.locals.length then
        .cont { c with stack := c.locals.getD tmp 0 :: c.stack }
      else .cont c
    | 18 | 42 | 43 | 44 =>
      match c.stack with
      | v :: rest =>
        if tmp < 2 ^ 63 ∧ tmp < c.locals.length then
          .cont { c with locals := c.locals.set tmp v, stack := rest }
        else .cont c
      | _ => .cont c
    | 15 =>
      match c.stack with
      | b :: a :: rest =>
        .cont { c with stack := rest, pc := if toS64 a = toS64 b then tmp else c.pc }
      | _ => .cont c
    | 16 =>
      match c.stack with
      | b :: a :: rest =>
        .cont { c with stack := rest, pc := if toS64 a ≠ toS64 b then tmp else c.pc }
      | _ => .cont c
    | 17 => .cont { c with pc := tmp }
    | 19 =>
      match c.stack with
      | b :: a :: rest => .cont { c with stack := (a &&& b) :: rest }
      | _ => .cont c
    | 20 =>
      match c.stack with
      | b :: a :: rest => .cont { c with stack := (a ||| b) :: rest }
      | _ => .cont c
    | 21 =>
      match c.stack with
      | b :: a :: rest => .cont { c with stack := (a ^^^ b) :: rest }
      | _ => .cont c
    | 22 =>
      match c.stack with
      | b :: a :: rest => .cont { c with stack := shl64 a b :: rest }
      | _ => .cont c
    | 23 =>
      match c.stack with
      | b :: a :: rest => .cont { c with stack := sar64 a b :: rest }
      | _ => .cont c
    | 24 =>
      match c.stack with
      | b :: a :: rest => .cont { c with stack := lshr64 a b :: rest }
      | _ => .cont c
    | 25 =>
      match c.stack with
      | b :: a :: rest =>
        .cont { c with stack := rest, pc := if toS64 a < toS64 b then tmp else c.pc }
      | _ => .cont c
    | 26 =>
      match c.stack with
      | b :: a :: rest =>
        .cont { c with stack := rest, pc := if toS64 a ≤ toS64 b then tmp else c.pc }
      | _ => .cont c
    | 27 =>
      match c.stack with
      | b :: a :: rest =>
        .cont { c with stack := rest, pc := if toS64 b < toS64 a then tmp else c.pc }
      | _ => .cont c
    | 28 =>
      match c.stack with
      | b :: a :: rest =>
        .cont { c with stack := rest, pc := if toS64 b ≤ toS64 a then tmp else c.pc }
      | _ => .cont c
    | 29 =>
      match c.stack with
      | a :: rest => .cont { c with stack := sext32 a :: rest }
      | _ => .cont c
    | 30 =>
      match c.stack with
      | a :: rest => .cont { c with stack := sext8 a :: rest }
      | _ => .cont c
    | 31 =>
      match c.stack with
      | a :: rest => .cont { c with stack := a % 2 ^ 16 :: rest }
      | _ => .cont c
    | 32 =>
      match c.stack with
      | a :: rest => .cont { c with stack := sext16 a :: rest }
      | _ => .cont c
    | 74 =>
      match c.stack with
      | a :: rest => .cont { c with stack := sext32 (F.i2f (a % 2 ^ 32)) :: rest }
      | _ => .cont c
    | 75 =>
      match c.stack with
      | a :: rest => .cont { c with stack := F.i2d (a % 2 ^ 32) % W64 :: rest }
      | _ => .cont c
    | 76 =>
      match c.stack with
      | a :: rest => .cont { c with stack := sext32 a :: rest }
      | _ => .cont c
    | 77 =>
      match c.stack with
      | a :: rest => .cont { c with stack := sext32 (F.l2f (a % W64)) :: rest }
      | _ => .cont c
    | 78 =>
      match c.stack with
      | a :: rest => .cont { c with stack := F.l2d (a % W64) % W64 :: rest }
      | _ => .cont c
    | 79 =>
      match c.stack with
      | a :: rest => .cont { c with stack := sext32 (F.f2i (a % 2 ^ 32)) :: rest }
      | _ => .cont c
    | 80 =>
      match c.stack with
      | a :: rest => .cont { c with stack := F.f2l (a % 2 ^ 32) % W64 :: rest }
      | _ => .cont c
    | 81 =>
      match c.stack with
      | a :: rest => .cont { c with stack := F.f2d (a % 2 ^ 32) % W64 :: rest }
      | _ => .cont c
    | 82 =>
      match c.stack with
      | a :: rest => .cont { c with stack := sext32 (F.d2i (a % W64)) :: rest }
      | _ => .cont c
    | 83 =>
      match c.stack with
      | a :: rest => .cont { c with stack := F.d2l (a % W64) % W64 :: rest }
      | _ => .cont c
    | 84 =>
      match c.stack with
      | a :: rest => .cont { c with stack := sext32 (F.d2f (a % W64)) :: rest }
      | _ => .cont c
    | 33 =>
      match c.stack with
      | a :: rest => .cont { c with stack := neg64 a :: rest }
      | _ => .cont c
    | 34 =>
      if c.stack.length < 256 ∧ tmp < 2 ^ 63 ∧ tmp < c.locals.length then
        .cont { c with stack := c.locals.getD tmp 0 :: c.stack }
      else .cont c
    | 35 =>
      match c.stack with
      | v :: rest =>
        if tmp < 2 ^ 63 ∧ tmp < c.locals.length then
          .cont { c with locals := c.locals.set tmp v, stack := rest }
        else .cont c
      | _ => .cont c
    | 36 =>
      match c.stack with
      | ib :: ab :: rest =>
        let idx := toS32 ib
        let vh :=
          if ab = 0 then ((0 : Nat), c.host.throwExc .npe)
          else match c.host.getArr ab with
            | none => (0, c.host)
            | some arr =>
              if arr.kind ≠ ArrKind.obj then (0, c.host)
              else if idx < 0 ∨ (arr.elems.length : Int) ≤ idx then
                (0, c.host.throwExc .aioob)
              else (arr.elems.getD idx.toNat 0, c.host)
        .cont { c with stack := vh.1 :: rest, host := vh.2 }
      | _ => .cont c
    | 37 =>
      match c.stack with
      | vb :: ib :: ab :: rest =>
        let c1 := { c with stack := rest }
        let idx := toS32 ib
        if ab = 0 then .cont { c1 with host := c1.host.throwExc .npe }
        else match c1.host.getArr ab with
          | none => .cont c1
          | some arr =>
            if arr.kind ≠ ArrKind.obj then .cont c1
            else if idx < 0 ∨ (arr.elems.length : Int) ≤ idx then
              .cont { c1 with host := c1.host.throwExc .aioob }
            else .cont { c1 with host := c1.host.setArrElem ab idx.toNat (vb % W64) }
      | _ => .cont c
    | 85 =>
      match c.stack with
      | ib :: ab :: rest =>
        let idx := toS32 ib
        let vh :=
          if ab = 0 then ((0 : Nat), c.host.throwExc .npe)
          else match c.host.getArr ab with
            | none => (0, c.host)
            | some arr =>
              if arr.kind ≠ ArrKind.int then (0, c.host)
              else if idx < 0 ∨ (arr.elems.length : Int) ≤ idx then
                (0, c.host.throwExc .aioob)
              else (sext32 (arr.elems.getD idx.toNat 0), c.host)
        .cont { c with stack := vh.1 :: rest, host := vh.2 }
      | _ => .cont c
    | 89 =>
      match c.stack with
      | ib :: ab :: rest =>
        let idx := toS32 ib
        let vh :=
          if ab = 0 then ((0 : Nat), c.host.throwExc .npe)
          else match c.host.getArr ab with
            | none => (0, c.host)
            | some arr =>
              if arr.kind ≠ ArrKind.byte then (0, c.host)
              else if idx < 0 ∨ (arr.elems.length : Int) ≤ idx then
                (0, c.host.throwExc .aioob)
              else (sext8 (arr.elems.getD idx.toNat 0), c.host)
        .cont { c with stack := vh.1 :: rest, host := vh.2 }
      | _ => .cont c
    | 90 =>
      match c.stack with
      | ib :: ab :: rest =>
        let idx := toS32 ib
        let vh :=
          if ab = 0 then ((0 : Nat), c.host.throwExc .npe)
          else match c.host.getArr ab with
            | none => (0, c.host)
            | some arr =>
              if arr.kind ≠ ArrKind.char then (0, c.host)
              else if idx < 0 ∨ (arr.elems.length : Int) ≤ idx then
                (0, c.host.throwExc .aioob)
              else (arr.elems.getD idx.toNat 0 % 2 ^ 16, c.host)
        .cont { c with stack := vh.1 :: rest, host := vh.2 }
      | _ => .cont c
    | 91 =>
      match c.stack with
      | ib :: ab :: rest =>
        let idx := toS32 ib
        let vh :=
          if ab = 0 then ((0 : Nat), c.host.throwExc .npe)
          else match c.host.getArr ab with
            | none => (0, c.host)
            | some arr =>
              if arr.kind ≠ ArrKind.short then (0, c.host)
              else if idx < 0 ∨ (arr.elems.length : Int) ≤ idx then
                (0, c.host.throwExc .aioob)
              else (sext16 (arr.elems.getD idx.toNat 0), c.host)
        .cont { c with stack := vh.1 :: rest, host := vh.2 }
      | _ => .cont c
    | 92 =>
      match c.stack with
      | vb :: ib :: ab :: rest =>
        let c1 := { c with stack := rest }
        let idx := toS32 ib
        if ab = 0 then .cont { c1 with host := c1.host.throwExc .npe }
        else match c1.host.getArr ab with
          | none => .cont c1
          | some arr =>
            if arr.kind ≠ ArrKind.int then .cont c1
            else if idx < 0 ∨ (arr.elems.length : Int) ≤ idx then
              .cont { c1 with host := c1.host.throwExc .aioob }
            else .cont { c1 with host := c1.host.setArrElem ab idx.toNat (vb % 2 ^ 32) }
      | _ => .cont c
    | 96 =>
      match c.stack with
      | vb :: ib :: ab :: rest =>
        let c1 := { c with stack := rest }
        let idx := toS32 ib
        if ab = 0 then .cont { c1 with host := c1.host.throwExc .npe }
        else match c1.host.getArr ab with
          | none => .cont c1
          | some arr =>
            if arr.kind ≠ ArrKind.byte then .cont c1
            else if idx < 0 ∨ (arr.elems.length : Int) ≤ idx then
              .cont { c1 with host := c1.host.throwExc .aioob }
            else .cont { c1 with host := c1.host.setArrElem ab idx.toNat (vb % 2 ^ 8) }
      | _ => .cont c
    | 97 =>
      match c.stack with
      | vb :: ib :: ab :: rest =>
        let c1 := { c with stack := rest }
        let idx := toS32 ib
        if ab = 0 then .cont { c1 with host := c1.host.throwExc .npe }
        else match c1.host.getArr ab with
          | none => .cont c1
          | some arr =>
            if arr.kind ≠ ArrKind.char then .cont c1
            else if idx < 0 ∨ (arr.elems.length : Int) ≤ idx then
              .cont { c1 with host := c1.host.throwExc .aioob }
            else .cont { c1 with host := c1.host.setArrElem ab idx.toNat (vb % 2 ^ 16) }
      | _ => .cont c
    | 98 =>
      match c.stack with
      | vb :: ib :: ab :: rest =>
        let c1 := { c with stack := rest }
        let idx := toS32 ib
        if ab = 0 then .cont { c1 with host := c1.host.throwExc .npe }
        else match c1.host.getArr ab with
          | none => .cont c1
          | some arr =>
            if arr.kind ≠ ArrKind.short then .cont c1
            else if idx < 0 ∨ (arr.elems.length : Int) ≤ idx then
              .cont { c1 with host := c1.host.throwExc .aioob }
            else .cont { c1 with host := c1.host.setArrElem ab idx.toNat (vb % 2 ^ 16) }
      | _ => .cont c
    | 38 => .cont c
    | 60 =>
      if c.stack.length < 256 then .cont { c with stack := 0 :: c.stack }
      else .cont c
    | 61 =>
      if c.stack.length < 256 then .cont { c with stack := 0x3F800000 :: c.stack }
      else .cont c
    | 62 =>
      if c.stack.length < 256 then .cont { c with stack := 0x40000000 :: c.stack }
      else .cont c
    | 63 =>
      if c.stack.length < 256 then .cont { c with stack := 0 :: c.stack }
      else .cont c
    | 64 =>
      if c.stack.length < 256 then
        .cont { c with stack := 0x3FF0000000000000 :: c.stack }
      else .cont c
    | 65 =>
      if c.stack.length < 256 then .cont { c with stack := 0 :: c.stack }
      else .cont c
    | 66 =>
      if c.stack.length < 256 then .cont { c with stack := 1 :: c.stack }
      else .cont c
    | 6 => .done (topOrZero c.stack) c
    | _ => .cont c

/-- One iteration of `run_program`'s `while (pc < size)` loop: fetch
the decoded instruction at `pc`, advance `pc`, branch on the opcode. -/
def jitStep (F : FloatSem) (prog : List (Nat × Nat)) (c : Cfg) : StepRes :=
  if prog.length ≤ c.pc then .done (topOrZero c.stack) c
  else
    let ins := prog.getD c.pc (0, 0)
    jitDispatch F prog { c with pc := c.pc + 1 } ins.1 ins.2

/-- Fuel-indexed iteration of `run_program`'s loop. -/
def jitRun (F : FloatSem) (prog : List (Nat × Nat)) :
    Nat → Cfg → Option (Nat × Cfg)
  | 0, _ => none
  | fuel + 1, c =>
    match jitStep F prog c with
    | .done v c' => some (v, c')
    | .cont c' => jitRun F prog fuel c'

/-- Initial configuration of `run_program`: empty stack, `pc = 0`
(`state` is unused by the replay and pinned to 0). -/
def jitInit (locals : List Nat) (h : Host) : Cfg := ⟨[], locals, 0, 0, h⟩

/-- Function `compile` from vm_jit.cpp: decode the whole program once;
if every decoded opcode is JIT-supported the decoded program is the
artifact, otherwise the artifact is empty (`{}` — a null function). -/
def compile (E : ExecEnv) : Option (List (Nat × Nat)) :=
  let prog := decodeForJit E.ctx E.seed E.code
  if prog.all (fun i => is_supported_for_jit i.1) then some prog else none

/-- The `HOT_THRESHOLD` constant of micro_vm.cpp. -/
def HOT_THRESHOLD : Nat := 10

/-- Insert-or-replace in an association list (the model of
`unordered_map` assignment). -/
def upsert {β : Type} : List (Nat × β) → Nat → β → List (Nat × β)
  | [], k, v => [(k, v)]
  | (k', v') :: rest, k, v =>
    if k' = k then (k, v) :: rest else (k', v') :: upsert rest k v

/-- The thread-local JIT state: `jit_cache` (program address →
artifact, `none` modelling the empty artifact with a null function
pointer) and `exec_counts` (program address → execution counter). -/
structure JitState where
  cache : List (Nat × Option (List (Nat × Nat)))
  counts : List (Nat × Nat)
deriving Repr, DecidableEq

/-- Function `execute_jit`: a cached artifact is invoked directly (a
cached empty artifact falls back to the interpreter, touching neither
map); otherwise the counter is incremented and once it passes
`HOT_THRESHOLD` the program is compiled and the artifact — empty or not
— is cached.  The program's address identity is modelled by `addr`. -/
def executeJit (E : ExecEnv) (addr : Nat) (js : JitState) (fuel : Nat)
    (locals : List Nat) (h : Host) : Option (Nat × Cfg) × JitState :=
  match js.cache.lookup addr with
  | some (some prog) => (jitRun E.F prog fuel (jitInit locals h), js)
  | some none => (execute E fuel locals h, js)
  | none =>
    let cnt := (js.counts.lookup addr).getD 0 + 1
    let js1 : JitState := { js with counts := upsert js.counts addr cnt }
    if HOT_THRESHOLD < cnt then
      let compiled := compile E
      let js2 : JitState := { js1 with cache := upsert js1.cache addr compiled }
      match compiled with
      | some prog => (jitRun E.F prog fuel (jitInit locals h), js2)
      | none => (execute E fuel locals h, js2)
    else (execute E fuel locals h, js1)

theorem upsert_lookup {β : Type} (l : List (Nat × β)) (k : Nat) (v : β) :
    (upsert l k v).lookup k = some v := by
  induction l with
  | nil => simp [upsert, List.lookup]
  | cons p rest ih =>
    obtain ⟨k', v'⟩ := p
    unfold upsert
    split_ifs with hk
    · simp [List.lookup]
    · have hne : (k == k') = false := by
        simp only [beq_eq_false_iff_ne]
        exact fun hkk => hk hkk.symm
      simpa [List.lookup, hne] using ih

/-- C9: once an artifact — including the empty artifact produced by a
failed compilation — is cached for a program address, every
`execute_jit` call on that address leaves both the cache and the
execution counter untouched and (for the empty artifact) runs the
interpreter; and the call that first drives the counter past the
threshold with an unsupported program caches the empty artifact for
that address, so compilation is never re-attempted. -/
theorem jit_compile_once (E : ExecEnv) (addr : Nat) (js : JitState)
    (fuel : Nat) (locals : List Nat) (h : Host) :
    (js.cache.lookup addr = some none →
      executeJit E addr js fuel locals h = (execute E fuel locals h, js)) ∧
    (js.cache.lookup addr = none →
      HOT_THRESHOLD < (js.counts.lookup addr).getD 0 + 1 →
      compile E = none →
      (executeJit E addr js fuel locals h).1 = execute E fuel locals h ∧
      (executeJit E addr js fuel locals h).2.cache.lookup addr = some none) := by
  constructor
  · intro hc
    simp [executeJit, hc]
  · intro hc hcnt hcomp
    simp [executeJit, hc, hcnt, hcomp, upsert_lookup]

/-- Witness for C9 at a concrete unsupported program (`IREM` is not in
the JIT allow-list): with the empty artifact cached the state is
unchanged, and from a counter at the threshold the empty artifact gets
cached. -/
theorem jit_compile_once_witness :
    executeJit (plainEnv [mkPlain 141 0]) 0 ⟨[(0, none)], []⟩ 5 [] emptyHost
      = (execute (plainEnv [mkPlain 141 0]) 5 [] emptyHost, ⟨[(0, none)], []⟩) ∧
    ((executeJit (plainEnv [mkPlain 141 0]) 0 ⟨[], [(0, 10)]⟩ 5 []
        emptyHost).2.cache.lookup 0 = some none) := by
  have h1 := jit_compile_once (plainEnv [mkPlain 141 0]) 0 ⟨[(0, none)], []⟩
    5 [] emptyHost
  have h2 := jit_compile_once (plainEnv [mkPlain 141 0]) 0 ⟨[], [(0, 10)]⟩
    5 [] emptyHost
  exact ⟨h1.1 (by decide), (h2.2 (by decide) (by decide) (by decide)).2⟩

set_option maxRecDepth 4000 in
/-- Witness for C10's amended theorem at a concrete full stack and a
pushing handler. -/
theorem sp_bound_preserved_witness :
    (stepStack (dispatch (plainEnv []) ⟨List.replicate 256 1, [], 0, 0, emptyHost⟩
      0 5)).length ≤ 256 := by
  exact sp_bound_preserved (plainEnv []) ⟨List.replicate 256 1, [], 0, 0, emptyHost⟩
    0 5 (by simp) (by decide)

end MicroVM
